import Mathlib

attribute [local semireducible] Rat.add Rat.mul Rat.sub Rat.inv

/-!
A shallow embedding of the relaxation controllers in
src/pylada/vasp/relax.py: the staged relaxation generator iter_relax, its
interleaved variant iter_training, the epitaxial bracket-and-bisection
search iter_epitaxial, and the convergence-policy builder
_get_is_converged.  Numeric values are modelled as rationals.  The external
VASP step executor (vasp.iter followed by vasp.Extract) is modelled as a
stub mapping an output directory to an extraction result.  Each generator
is modelled as a function producing the list of work requests it makes
(one per "for u in vasp.iter(...)" block), together with its final
outcome: normal completion, a raised exception, or fuel exhaustion of the
unbounded while loops.
-/

namespace PyladaRelax

/-- Three-component rational vector (a numpy float array of shape (3,)). -/
abbrev V3 : Type := ℚ × ℚ × ℚ

/-- Componentwise vector addition. -/
def vadd (a b : V3) : V3 := (a.1 + b.1, a.2.1 + b.2.1, a.2.2 + b.2.2)

/-- Scalar times vector. -/
def smul (c : ℚ) (v : V3) : V3 := (c * v.1, c * v.2.1, c * v.2.2)

/-- Dot product of two 3-vectors. -/
def dot3 (a b : V3) : ℚ := a.1 * b.1 + a.2.1 * b.2.1 + a.2.2 * b.2.2

/-- Rational 3 by 3 matrix, stored as its three rows. -/
abbrev M3 : Type := V3 × V3 × V3

/-- Row-vector times matrix: numpy dot(d, m), component j is the sum over i
of d i * m i j, that is the d-weighted combination of the rows of m. -/
def vecMat (d : V3) (m : M3) : V3 :=
  vadd (smul d.1 m.1) (vadd (smul d.2.1 m.2.1) (smul d.2.2 m.2.2))

/-- Matrix times column vector: numpy dot(m, p). -/
def mvMul (m : M3) (p : V3) : V3 := (dot3 m.1 p, dot3 m.2.1 p, dot3 m.2.2 p)

/-- Matrix product: numpy dot(a, b). -/
def matMul (a b : M3) : M3 := (vecMat a.1 b, vecMat a.2.1 b, vecMat a.2.2 b)

/-- Componentwise matrix addition. -/
def madd (a b : M3) : M3 := (vadd a.1 b.1, vadd a.2.1 b.2.1, vadd a.2.2 b.2.2)

/-- Scalar times matrix. -/
def smulM (c : ℚ) (m : M3) : M3 := (smul c m.1, smul c m.2.1, smul c m.2.2)

/-- Outer product of two 3-vectors: numpy outer(d, e). -/
def outer (d e : V3) : M3 := (smul d.1 e, smul d.2.1 e, smul d.2.2 e)

/-- Projected stress component, source lines 489-491:
dot(dot(direction, stress), direction). -/
def component (d : V3) (stress : M3) : ℚ := dot3 (vecMat d stress) d

/-- A crystal structure as the controllers see it: a cell matrix plus the
atomic positions.  len(structure) in the source is the number of atoms. -/
structure Structure where
  cell : M3
  pos : List V3
deriving DecidableEq

/-- Number of atoms: len(structure). -/
def Structure.len (s : Structure) : ℕ := s.pos.length

/-- One component of a filesystem path.  The source builds step directories
with os.path.join out of literal names, str(nb_steps) for integer step
counters, and "{0:0<12.10}".format(x) for epitaxial strain values; the
three constructors model those three sources of a component.  int() applied
to the last component (as in _get_is_converged) succeeds exactly on num
components. -/
inductive PathComp
  | name (s : String)
  | num (n : ℕ)
  | strain (x : ℚ)
deriving DecidableEq

/-- A filesystem path is a list of components. -/
abbrev Path : Type := List PathComp

/-- Data of an extraction result, minus the directory it was read from:
the attributes of a vasp.Extract object that relax.py reads.  The forces
array is kept as a list of 3-vectors. -/
structure ResCore where
  success : Bool
  struct : Structure
  total_energies : List ℚ
  total_energy : ℚ
  forces : List V3
  stress : M3
deriving DecidableEq

/-- An extraction result: core data plus the directory attribute, which
vasp.Extract(dir) sets to its argument. -/
structure Result extends ResCore where
  directory : Path
deriving DecidableEq

/-- The stub executor: what the external VASP runs leave behind, addressed
by output directory (spec section 6, StepExecutor contract). -/
abbrev Exec : Type := Path → ResCore

/-- Models vasp.Extract(dir): read the result stored at dir; its directory
attribute is the constructor argument. -/
def Extract (ex : Exec) (dir : Path) : Result := { ex dir with directory := dir }

/-- Exceptions raised by relax.py.  The source raises ExternalRunFailed
with three different messages (policy evaluation on a failed result, and
the two distinct could-not-converge messages naming the phase), ValueError
at policy construction, and - in Python 3 - TypeError when the
construction-time validation compares a callable with an int. -/
inductive PyErr
  | runFailed
  | convCellShape
  | convIons
  | valueError
  | typeError
deriving DecidableEq

/-- Models int(extractor.directory.split("/")[-1]): the last path component
when it is a numeric step index, none when int() would raise ValueError. -/
def lastNum (dir : Path) : Option ℕ :=
  match dir.getLast? with
  | some (PathComp.num n) => some n
  | _ => none

/-- A convergence policy: the is_converged closure returned by
_get_is_converged.  It can raise (ExternalRunFailed on a failed result,
ValueError on an unparseable directory index). -/
abbrev Policy : Type := Option Result → Except PyErr Bool

/-- Common preamble shared by the three is_converged closures, source lines
381-398 and 403-411: a missing result converges; a failed result raises;
i = int(directory.split("/")[-1]) + 1; a positive minrelsteps greater than
i forces not-converged; otherwise the branch-specific check runs. -/
def convPreamble (minrelsteps : Int) (check : Result → Except PyErr Bool) :
    Policy
  | none => .ok true
  | some r =>
    if r.success = false then .error .runFailed
    else
      match lastNum r.directory with
      | none => .error .valueError
      | some k =>
        if minrelsteps > 0 ∧ minrelsteps > (k : Int) + 1 then .ok false
        else check r

/-- Energy branch, source lines 399-401: a trace with fewer than two
entries converges; otherwise compare the absolute difference of the last
two entries of total_energies against the (pre-scaled) criterion. -/
def energyCheck (conv : ℚ) (r : Result) : Except PyErr Bool :=
  if r.total_energies.length < 2 then .ok true
  else
    .ok (decide
      (|r.total_energies.getD (r.total_energies.length - 2) 0
        - r.total_energies.getD (r.total_energies.length - 1) 0| < conv))

/-- Force branch, source line 412: all(max(abs(forces)) < abs(convergence));
numpy max over the flattened force components, raising on an empty array. -/
def forceCheck (conv : ℚ) (r : Result) : Except PyErr Bool :=
  match (r.forces.flatMap fun v => [v.1, v.2.1, v.2.2]).map (fun q => |q|) with
  | [] => .error .valueError
  | q :: qs => .ok (decide (qs.foldl max q < |conv|))

/-- The convergence criterion argument: None, a callable, or a number
(source docstring for the convergence keyword). -/
inductive Criterion
  | none
  | callable (f : Result → Bool)
  | num (c : ℚ)

/-- Models _get_is_converged (source lines 366-413).  A None criterion
defaults to 10 * vasp.ediff; a positive numeric criterion is scaled by the
atom count; the validation then rejects a positive criterion smaller than
vasp.ediff.  For a callable criterion, Python 3 raises TypeError at the
validation line `if convergence > 0 and convergence < vasp.ediff`, because
a function does not compare with an int; the callable closure of source
lines 380-389 is therefore unreachable.  Otherwise the sign of the
resolved criterion selects the energy or the force closure. -/
def get_is_converged (ediff : ℚ) (natoms : ℕ) (minrelsteps : Int) :
    Criterion → Except PyErr Policy
  | .none =>
    let c := 10 * ediff
    if 0 < c ∧ c < ediff then .error .valueError
    else if 0 < c then .ok (convPreamble minrelsteps (energyCheck c))
    else .ok (convPreamble minrelsteps (forceCheck c))
  | .callable _ => .error .typeError
  | .num c0 =>
    let c := if 0 < c0 then c0 * (natoms : ℚ) else c0
    if 0 < c ∧ c < ediff then .error .valueError
    else if 0 < c then .ok (convPreamble minrelsteps (energyCheck c))
    else .ok (convPreamble minrelsteps (forceCheck c))

/-- True when construction produced a policy rather than raising. -/
def isOkB {α : Type} : Except PyErr α → Bool
  | .ok _ => true
  | .error _ => false

/-- Keyword-parameter dictionaries passed through to the executor; an
association list of keyword names to (opaque) values. -/
abbrev Params : Type := List (String × Int)

/-- Models dict.update: keys of upd override keys of base, other keys of
base survive. -/
def dictUpdate (base upd : Params) : Params :=
  base.filter (fun kv => !(upd.any (fun kv2 => kv2.1 == kv.1))) ++ upd

/-- Models the relaxation mode string through the only three tests relax.py
applies to it: relaxation.find("cellshape") != -1, .find("ionic") != -1 and
.find("relgw") != -1 (source lines 238, 272, 307). -/
structure RelaxMode where
  cellshape : Bool
  ionic : Bool
  relgw : Bool
deriving DecidableEq

/-- The relaxation argument a step request passes to vasp.iter: the mode
string itself (cell-shape calls), the literal strings "ionic", "relgw" and
"static", or the literal 2 used by the epitaxial trial calls (source line
475 sets kwargs["relaxation"] = 2). -/
inductive RelaxTag
  | mode (m : RelaxMode)
  | ionic
  | relgw
  | static
  | two
deriving DecidableEq

/-- One work request: a "for u in vasp.iter(structure, outdir=dir,
restart=r, relaxation=t, **params): yield u" block of the source. -/
structure StepReq where
  struct : Structure
  dir : Path
  restart : Option Result
  relaxation : RelaxTag
  params : Params
deriving DecidableEq

/-- Observable actions of one generator invocation: requesting an external
step, removing a directory tree (shutil.rmtree), and yielding the terminal
extraction object. -/
inductive Event
  | step (r : StepReq)
  | removeTree (p : Path)
  | emitFinal (dir : Path)
deriving DecidableEq

/-- Outcome of a (piece of a) run: normal value, raised exception, or fuel
exhaustion of an unbounded while loop. -/
inductive Exit (α : Type)
  | ok (a : α)
  | err (e : PyErr)
  | fuelOut
deriving DecidableEq

/-- Sequencing of traced computations: on normal exit continue, otherwise
propagate the trace so far and the abnormal exit. -/
def andThen {α β : Type} :
    List Event × Exit α → (α → List Event × Exit β) → List Event × Exit β
  | (tr, .ok a), k => ((k a).1 |> (tr ++ ·), (k a).2)
  | (tr, .err e), _ => (tr, .err e)
  | (tr, .fuelOut), _ => (tr, .fuelOut)

/-- Loop state of iter_relax: the shared step counter nb_steps, the latest
extraction output, the working structure relaxed_structure, and the current
parameter dictionary params. -/
structure RState where
  nb : ℕ
  output : Option Result
  rs : Structure
  params : Params

/-- Fixed data of one phase loop of iter_relax.  The cell-shape loop
(source lines 238-265) uses ceiling = maxcalls, sub = "relax_cellshape" and
passes relaxation = relaxation; the ionic loop (source lines 272-296) uses
ceiling = maxcalls + 1, sub = "relax_ions" and passes relaxation =
"ionic".  Both share the guard shape, the first-trial consumption at
nb_steps == 1, and the convergence break. -/
structure PhaseCfg where
  ex : Exec
  maxcalls : Int
  ceiling : Int
  active : Bool
  sub : String
  tag : RelaxTag
  first_trial : Params
  kwargs : Params
  outdir : Path
  pol : Policy

/-- One while loop of iter_relax, fuel-indexed.  Each iteration requests a
step at outdir/sub/nb_steps with the previous output as restart, reads the
extraction back, does NOT raise on a failed result (the source merely
constructs ExternalRunFailed without raising it, lines 254-255 and
285-286), replaces the working structure, increments nb_steps, consumes a
non-empty first_trial on the very first step of the run (skipping the
convergence check, lines 259-261 and 290-292), and otherwise breaks when
the policy reports convergence.  The policy itself can raise. -/
def phaseLoop (c : PhaseCfg) : ℕ → RState → List Event × Exit RState
  | 0, st =>
    if (c.maxcalls ≤ 0 ∨ (st.nb : Int) < c.ceiling) ∧ c.active then ([], .fuelOut)
    else ([], .ok st)
  | fuel + 1, st =>
    if (c.maxcalls ≤ 0 ∨ (st.nb : Int) < c.ceiling) ∧ c.active then
      let dir := c.outdir ++ [PathComp.name c.sub, PathComp.num st.nb]
      let ev := Event.step
        { struct := st.rs, dir := dir, restart := st.output,
          relaxation := c.tag, params := st.params }
      let out := Extract c.ex dir
      let st1 : RState :=
        { nb := st.nb + 1, output := some out, rs := out.struct,
          params := st.params }
      if st1.nb = 1 ∧ c.first_trial ≠ [] then
        let r := phaseLoop c fuel { st1 with params := c.kwargs }
        (ev :: r.1, r.2)
      else
        match c.pol (some out) with
        | .error er => ([ev], .err er)
        | .ok true => ([ev], .ok st1)
        | .ok false =>
          let r := phaseLoop c fuel st1
          (ev :: r.1, r.2)
    else ([], .ok st)

/-- The convergence gate between phases, source lines 267-269 and 327-329:
"if nofail == False and is_converged(output) == False: raise".  Python
short-circuits, so with nofail the policy is not evaluated at all; without
it the policy may itself raise, and an unconverged output raises the
phase-naming ExternalRunFailed e. -/
def convCheck (pol : Policy) (nofail : Bool) (out : Option Result)
    (e : PyErr) : List Event × Exit Unit :=
  if nofail = false then
    match pol out with
    | .error er => ([], .err er)
    | .ok true => ([], .ok ())
    | .ok false => ([], .err e)
  else ([], .ok ())

/-- The at-most-once relgw step, source lines 306-325: guarded by
nb_steps < maxcalls + 2 and the mode, one step at relax_gwcalc/nb_steps,
no convergence check; the failed-result exception is again constructed but
not raised. -/
def gwPhase (ex : Exec) (maxcalls : Int) (active : Bool) (outdir : Path)
    (st : RState) : List Event × Exit RState :=
  if (maxcalls ≤ 0 ∨ (st.nb : Int) < maxcalls + 2) ∧ active then
    let dir := outdir ++ [PathComp.name "relax_gwcalc", PathComp.num st.nb]
    let ev := Event.step
      { struct := st.rs, dir := dir, restart := st.output,
        relaxation := RelaxTag.relgw, params := st.params }
    let out := Extract ex dir
    ([ev],
      .ok { nb := st.nb + 1, output := some out, rs := out.struct,
            params := st.params })
  else ([], .ok st)

/-- The final static step of iter_relax, source lines 336-356: one step at
outdir itself with **kwargs, a failed extraction only constructs the
exception, then - if the extraction succeeded and keepsteps is false - the
source removes outdir/cellshape and outdir/ions (note: NOT the
relax_cellshape and relax_ions directories the steps were stored in), and
finally the terminal extraction object is yielded. -/
def staticPhase (ex : Exec) (keepsteps : Bool) (kwargs : Params)
    (outdir : Path) (st : RState) : List Event × Exit Unit :=
  let ev := Event.step
    { struct := st.rs, dir := outdir, restart := st.output,
      relaxation := RelaxTag.static, params := kwargs }
  let out := Extract ex outdir
  let cleanup : List Event :=
    if out.success = true ∧ keepsteps = false then
      [Event.removeTree (outdir ++ [PathComp.name "cellshape"]),
       Event.removeTree (outdir ++ [PathComp.name "ions"])]
    else []
  (ev :: (cleanup ++ [Event.emitFinal outdir]), .ok ())

/-- Arguments of iter_relax that the model tracks (source line 102-104
signature), plus vasp.ediff and the relaxation mode resolved from
kwargs/vasp.relaxation (source lines 229-234). -/
structure RelaxArgs where
  ediff : ℚ
  maxcalls : Int
  keepsteps : Bool
  nofail : Bool
  convergence : Criterion
  minrelsteps : Int
  first_trial : Params
  mode : RelaxMode

/-- Cell-shape loop of iter_relax as a phaseLoop instance. -/
def relaxCellCfg (ex : Exec) (a : RelaxArgs) (kwargs : Params)
    (outdir : Path) (pol : Policy) : PhaseCfg :=
  { ex := ex, maxcalls := a.maxcalls, ceiling := a.maxcalls,
    active := a.mode.cellshape, sub := "relax_cellshape",
    tag := RelaxTag.mode a.mode, first_trial := a.first_trial,
    kwargs := kwargs, outdir := outdir, pol := pol }

/-- Ionic loop of iter_relax as a phaseLoop instance (ceiling maxcalls+1). -/
def relaxIonCfg (ex : Exec) (a : RelaxArgs) (kwargs : Params)
    (outdir : Path) (pol : Policy) : PhaseCfg :=
  { ex := ex, maxcalls := a.maxcalls, ceiling := a.maxcalls + 1,
    active := a.mode.ionic, sub := "relax_ions",
    tag := RelaxTag.ionic, first_trial := a.first_trial,
    kwargs := kwargs, outdir := outdir, pol := pol }

/-- Models one invocation of iter_relax (source lines 102-356): build the
convergence policy (which may raise at construction), run the cell-shape
loop from nb_steps = 0 with params = kwargs updated by first_trial, apply
the cell-shape convergence gate, run the ionic loop, the optional relgw
step, the ionic convergence gate, and the final static step. -/
def iter_relax_run (ex : Exec) (a : RelaxArgs) (kwargs : Params)
    (outdir : Path) (struct0 : Structure) (fuel : ℕ) :
    List Event × Exit Unit :=
  match get_is_converged a.ediff struct0.len a.minrelsteps a.convergence with
  | .error e => ([], .err e)
  | .ok pol =>
    let st0 : RState :=
      { nb := 0, output := none, rs := struct0,
        params := dictUpdate kwargs a.first_trial }
    andThen (phaseLoop (relaxCellCfg ex a kwargs outdir pol) fuel st0) fun st1 =>
    andThen (convCheck pol a.nofail st1.output PyErr.convCellShape) fun _ =>
    andThen (phaseLoop (relaxIonCfg ex a kwargs outdir pol) fuel st1) fun st2 =>
    andThen (gwPhase ex a.maxcalls a.mode.relgw outdir st2) fun st3 =>
    andThen (convCheck pol a.nofail st3.output PyErr.convIons) fun _ =>
    staticPhase ex a.keepsteps kwargs outdir st3

/-- Arguments of iter_training (source lines 576-579 signature): like
iter_relax but without keepsteps. -/
structure TrainArgs where
  ediff : ℚ
  maxcalls : Int
  nofail : Bool
  convergence : Criterion
  minrelsteps : Int
  first_trial : Params
  mode : RelaxMode

/-- Loop state of iter_training; params is recomputed inside every cycle
so it is not part of the state. -/
structure TState where
  nb : ℕ
  output : Option Result
  rs : Structure

/-- The single interleaved loop of iter_training, source lines 696-752.
Every cycle recomputes params = kwargs updated by first_trial (the
"if first_trial is not None" at line 699 is always true because line 675
replaced None with an empty dict), performs one cell-shape step, evaluates
the convergence policy on it (which may raise), resets params to kwargs
when first_trial is non-empty, performs one ionic step, and breaks after
the ionic step when the cell-shape check had reported convergence.  Failed
extractions again only construct ExternalRunFailed without raising. -/
def trainLoop (ex : Exec) (maxcalls : Int) (first_trial kwargs : Params)
    (mode : RelaxMode) (outdir : Path)
    (pol : Policy) : ℕ → TState → List Event × Exit TState
  | 0, st =>
    if maxcalls ≤ 0 ∨ (st.nb : Int) < maxcalls then ([], .fuelOut)
    else ([], .ok st)
  | fuel + 1, st =>
    if maxcalls ≤ 0 ∨ (st.nb : Int) < maxcalls then
      let params := dictUpdate kwargs first_trial
      let dir1 := outdir ++ [PathComp.name "relax_cellshape", PathComp.num st.nb]
      let ev1 := Event.step
        { struct := st.rs, dir := dir1, restart := st.output,
          relaxation := RelaxTag.mode mode, params := params }
      let out1 := Extract ex dir1
      let nb1 := st.nb + 1
      match pol (some out1) with
      | .error er => ([ev1], .err er)
      | .ok isConv =>
        let params2 := if first_trial ≠ [] then kwargs else params
        let dir2 := outdir ++ [PathComp.name "relax_ions", PathComp.num nb1]
        let ev2 := Event.step
          { struct := out1.struct, dir := dir2, restart := some out1,
            relaxation := RelaxTag.ionic, params := params2 }
        let out2 := Extract ex dir2
        let st2 : TState := { nb := nb1 + 1, output := some out2, rs := out2.struct }
        if isConv then ([ev1, ev2], .ok st2)
        else
          let r := trainLoop ex maxcalls first_trial kwargs mode outdir pol fuel st2
          (ev1 :: ev2 :: r.1, r.2)
    else ([], .ok st)

/-- Final static step of iter_training, source lines 776-792: one step at
outdir with **kwargs, constructed-only failure check, terminal yield; no
directory cleanup exists in iter_training. -/
def trainStatic (ex : Exec) (kwargs : Params) (outdir : Path) (st : TState) :
    List Event × Exit Unit :=
  let ev := Event.step
    { struct := st.rs, dir := outdir, restart := st.output,
      relaxation := RelaxTag.static, params := kwargs }
  let _out := Extract ex outdir
  (ev :: [Event.emitFinal outdir], .ok ())

/-- Models one invocation of iter_training (source lines 576-792).  Note
that the call to _get_is_converged at lines 680-682 does NOT forward
minrelsteps, so the policy is always built with the default
minrelsteps = -1, whatever a.minrelsteps the caller supplied.  After the
loop the source performs the same nofail-guarded convergence gate twice
(lines 757-758 and 768-769), first with the cell-shape message, then with
the ions message. -/
def iter_training_run (ex : Exec) (a : TrainArgs) (kwargs : Params)
    (outdir : Path) (struct0 : Structure) (fuel : ℕ) :
    List Event × Exit Unit :=
  match get_is_converged a.ediff struct0.len (-1) a.convergence with
  | .error e => ([], .err e)
  | .ok pol =>
    andThen (trainLoop ex a.maxcalls a.first_trial kwargs a.mode outdir pol fuel
        { nb := 0, output := none, rs := struct0 }) fun st1 =>
    andThen (convCheck pol a.nofail st1.output PyErr.convCellShape) fun _ =>
    andThen (convCheck pol a.nofail st1.output PyErr.convIons) fun _ =>
    trainStatic ex kwargs outdir st1

/-- Arguments of iter_epitaxial the model tracks (source lines 416-417
signature).  The direction is modelled as the already-normalised search
direction: the source divides the input by its norm at line 459, and the
default [0, 0, 1] is already a unit vector. -/
structure EpiArgs where
  direction : V3
  epiconv : ℚ
  initstep : ℚ

/-- Directory of the epitaxial trial at strain x, source pattern
join(outdir, "relax_ions", "{0:0<12.10}".format(x)). -/
def epiDir (outdir : Path) (x : ℚ) : Path :=
  outdir ++ [PathComp.name "relax_ions", PathComp.strain x]

/-- Models change_structure (source lines 479-487): strain the original
cell and all atomic positions by x along the outer product of the search
direction with itself. -/
def change_structure (struct0 : Structure) (d : V3) (x : ℚ) : Structure :=
  let strain := smulM x (outer d d)
  { cell := madd struct0.cell (matMul strain struct0.cell),
    pos := struct0.pos.map fun p => vadd p (mvMul strain p) }

/-- Bracket/bisection state of iter_epitaxial: the two current strain
values and their extraction results. -/
structure EpiSt where
  xstart : ℚ
  xend : ℚ
  estart : Result
  eend : Result
deriving DecidableEq

/-- The outward bracket walk, source lines 517-526: while the projected
stress at the current end keeps the sign of the search direction, shift
start to end and advance end by one more initstep in the search direction;
each new end point is evaluated with the previous end (allcalcs[-1]) as
restart. -/
def epiBracketLoop (ex : Exec) (kwargs : Params) (outdir : Path) (d : V3)
    (sdir initstep : ℚ) (struct0 : Structure) :
    ℕ → EpiSt → List Event × Exit EpiSt
  | 0, st =>
    if 0 < sdir * component d st.eend.stress then ([], .fuelOut)
    else ([], .ok st)
  | fuel + 1, st =>
    if 0 < sdir * component d st.eend.stress then
      let xend := st.xend + (if 0 < sdir then initstep else -initstep)
      let ev := Event.step
        { struct := change_structure struct0 d xend, dir := epiDir outdir xend,
          restart := some st.eend, relaxation := RelaxTag.two, params := kwargs }
      let eend := Extract ex (epiDir outdir xend)
      let r := epiBracketLoop ex kwargs outdir d sdir initstep struct0 fuel
        { xstart := st.xend, xend := xend, estart := st.eend, eend := eend }
      (ev :: r.1, r.2)
    else ([], .ok st)

/-- The bisection loop, source lines 529-541: while the two bracket
results differ in total energy by more than thr = epiconv * len(structure),
evaluate the midpoint (restart = allcalcs[-1], the chronologically previous
evaluation, threaded here as prev), and replace the start endpoint when the
midpoint stress has the sign of the search direction, the end endpoint
otherwise. -/
def epiBisectLoop (ex : Exec) (kwargs : Params) (outdir : Path) (d : V3)
    (sdir thr : ℚ) (struct0 : Structure) :
    ℕ → Result → EpiSt → List Event × Exit EpiSt
  | 0, _, st =>
    if thr < |st.estart.total_energy - st.eend.total_energy| then ([], .fuelOut)
    else ([], .ok st)
  | fuel + 1, prev, st =>
    if thr < |st.estart.total_energy - st.eend.total_energy| then
      let xmid := (st.xend + st.xstart) / 2
      let ev := Event.step
        { struct := change_structure struct0 d xmid, dir := epiDir outdir xmid,
          restart := some prev, relaxation := RelaxTag.two, params := kwargs }
      let emid := Extract ex (epiDir outdir xmid)
      let st1 :=
        if 0 < sdir * component d emid.stress then
          { st with xstart := xmid, estart := emid }
        else
          { st with xend := xmid, eend := emid }
      let r := epiBisectLoop ex kwargs outdir d sdir thr struct0 fuel emid st1
      (ev :: r.1, r.2)
    else ([], .ok st)

/-- Baseline extraction of the epitaxial search at strain 0. -/
def epiEstart (ex : Exec) (outdir : Path) : Result := Extract ex (epiDir outdir 0)

/-- Search direction sign, source line 506: 1.0 when the baseline projected
stress is positive, else -1.0. -/
def epiSdir (ex : Exec) (d : V3) (outdir : Path) : ℚ :=
  if 0 < component d (epiEstart ex outdir).stress then 1 else -1

/-- First trial end strain, source line 507: initstep in the search
direction. -/
def epiXend1 (ex : Exec) (d : V3) (outdir : Path) (initstep : ℚ) : ℚ :=
  if 0 < epiSdir ex d outdir then initstep else -initstep

/-- Extraction at the first trial end strain. -/
def epiEend1 (ex : Exec) (d : V3) (outdir : Path) (initstep : ℚ) : Result :=
  Extract ex (epiDir outdir (epiXend1 ex d outdir initstep))

/-- Bracket state when the outward walk starts: [0, xend1] with the two
initial evaluations. -/
def epiEntrySt (ex : Exec) (d : V3) (outdir : Path) (initstep : ℚ) : EpiSt :=
  { xstart := 0, xend := epiXend1 ex d outdir initstep,
    estart := epiEstart ex outdir, eend := epiEend1 ex d outdir initstep }

/-- Best bracket endpoint, source line 544: efinal = eend if
estart.total_energy > eend.total_energy else estart. -/
def epiFinal (st : EpiSt) : Result :=
  if st.eend.total_energy < st.estart.total_energy then st.eend else st.estart

/-- The final static request of iter_epitaxial, source line 546:
vasp.iter(efinal.structure, outdir=outdir, restart=efinal) with
kwargs["relaxation"] = "static". -/
def epiStaticReq (kwargs : Params) (outdir : Path) (st : EpiSt) : StepReq :=
  { struct := (epiFinal st).struct, dir := outdir, restart := some (epiFinal st),
    relaxation := RelaxTag.static, params := kwargs }

/-- Final static step and terminal yield of iter_epitaxial, source lines
543-565.  The OUTCAR rewrite that patches the recorded initial structure
(lines 552-562) has no counterpart in the event alphabet. -/
def epiStatic (ex : Exec) (kwargs : Params) (outdir : Path) (st : EpiSt) :
    List Event × Exit Unit :=
  let _final := Extract ex outdir
  (Event.step (epiStaticReq kwargs outdir st) :: [Event.emitFinal outdir], .ok ())

/-- The baseline request of iter_epitaxial at strain 0, with no restart
(allcalcs is still empty, source lines 497-501). -/
def epiEv0 (ex : Exec) (kwargs : Params) (outdir : Path) (struct0 : Structure)
    (d : V3) : Event :=
  Event.step
    { struct := change_structure struct0 d 0, dir := epiDir outdir 0,
      restart := none, relaxation := RelaxTag.two, params := kwargs }

/-- The first end-point request of iter_epitaxial at strain
initstep * sign, restarted from the baseline (source lines 509-513). -/
def epiEv1 (ex : Exec) (kwargs : Params) (outdir : Path) (struct0 : Structure)
    (d : V3) (initstep : ℚ) : Event :=
  Event.step
    { struct := change_structure struct0 d (epiXend1 ex d outdir initstep),
      dir := epiDir outdir (epiXend1 ex d outdir initstep),
      restart := some (epiEstart ex outdir), relaxation := RelaxTag.two,
      params := kwargs }

/-- Models one invocation of iter_epitaxial (source lines 416-565):
evaluate the baseline at strain 0 (restart None since allcalcs is empty),
fix the search sign from its projected stress, evaluate the first end
point, walk outward until the projected stress changes sign, bisect the
bracket, and run the final static step from the lower-energy endpoint. -/
def iter_epitaxial_run (ex : Exec) (a : EpiArgs) (kwargs : Params)
    (outdir : Path) (struct0 : Structure) (fuel : ℕ) :
    List Event × Exit Unit :=
  andThen (epiEv0 ex kwargs outdir struct0 a.direction
      :: epiEv1 ex kwargs outdir struct0 a.direction a.initstep
      :: (epiBracketLoop ex kwargs outdir a.direction
            (epiSdir ex a.direction outdir) a.initstep struct0 fuel
            (epiEntrySt ex a.direction outdir a.initstep)).1,
      (epiBracketLoop ex kwargs outdir a.direction
          (epiSdir ex a.direction outdir) a.initstep struct0 fuel
          (epiEntrySt ex a.direction outdir a.initstep)).2) fun stB =>
  andThen (epiBisectLoop ex kwargs outdir a.direction
      (epiSdir ex a.direction outdir)
      (a.epiconv * (struct0.len : ℚ)) struct0 fuel stB.eend stB) fun stC =>
  epiStatic ex kwargs outdir stC

/-! Observation helpers over traces. -/

/-- Recognises a step event stored in the sub-folder sub of outdir at a
numeric index, i.e. at outdir/sub/n. -/
def isSubStep (outdir : Path) (sub : String) : Event → Bool
  | .step r =>
    match r.dir.drop outdir.length with
    | [PathComp.name s, PathComp.num _] => s == sub
    | _ => false
  | _ => false

/-- Number of step events of a trace addressed at outdir/sub/n. -/
def countSub (outdir : Path) (sub : String) (tr : List Event) : ℕ :=
  (tr.filter (isSubStep outdir sub)).length

/-- The step requests of a trace, in order. -/
def stepsOf (tr : List Event) : List StepReq :=
  tr.filterMap fun e =>
    match e with
    | Event.step r => some r
    | _ => none

/-- The requests are chained from prev: each request carries as its resume
checkpoint exactly the extraction result of the immediately preceding
request (prev for the first one). -/
def chainedFrom (ex : Exec) : Option Result → List StepReq → Prop
  | _, [] => True
  | prev, r :: rest =>
    r.restart = prev ∧ chainedFrom ex (some (Extract ex r.dir)) rest

/-- The checkpoint available after a request list: the extraction of the
last request, or prev when there is none. -/
def endRes (ex : Exec) : Option Result → List StepReq → Option Result
  | p, [] => p
  | _, r :: rest => endRes ex (some (Extract ex r.dir)) rest

/-- The weak straddle invariant of the epitaxial bracket: relative to the
search sign sdir, the start endpoint has non-negative projected stress and
the end endpoint non-positive projected stress. -/
def straddle (d : V3) (sdir : ℚ) (st : EpiSt) : Prop :=
  0 ≤ sdir * component d st.estart.stress ∧
  sdir * component d st.eend.stress ≤ 0

/-! Concrete inputs used to evaluate the model. -/

/-- A one-atom structure with the identity cell. -/
def sTriv : Structure := { cell := ((1,0,0),(0,1,0),(0,0,1)), pos := [(0,0,0)] }

/-- The zero stress tensor. -/
def mTriv : M3 := ((0,0,0),(0,0,0),(0,0,0))

/-- Diagonal stress tensor with value q. -/
def diag (q : ℚ) : M3 := ((q,0,0),(0,q,0),(0,0,q))

/-- A successful result whose energy trace is already converged. -/
def okCore : ResCore :=
  { success := true, struct := sTriv, total_energies := [0,0], total_energy := 0,
    forces := [(0,0,0)], stress := mTriv }

/-- The same data marked as a failed run. -/
def badCore : ResCore := { okCore with success := false }

/-- Executor for the C1 scenario: every relaxation step succeeds, but the
final static extraction at outdir (here the empty path) reports failure. -/
def c1Exec : Exec := fun dir => if dir = ([] : Path) then badCore else okCore

/-- Arguments for the C1 scenario: cell-shape-only staged relaxation with
an immediately satisfied energy criterion. -/
def c1Args : RelaxArgs :=
  { ediff := 1/2, maxcalls := 20, keepsteps := true, nofail := false,
    convergence := Criterion.num 1, minrelsteps := -1, first_trial := [],
    mode := { cellshape := true, ionic := false, relgw := false } }

/-- The C1 run. -/
def c1run : List Event × Exit Unit := iter_relax_run c1Exec c1Args [] [] sTriv 25

/-- Executor for the C7 scenario: every extraction succeeds with an already
converged trace. -/
def c7Exec : Exec := fun _ => okCore

/-- Arguments for the C7 scenario: successful staged relaxation with
keepsteps = false. -/
def c7Args : RelaxArgs :=
  { ediff := 1/2, maxcalls := 20, keepsteps := false, nofail := false,
    convergence := Criterion.num 1, minrelsteps := -1, first_trial := [],
    mode := { cellshape := true, ionic := true, relgw := false } }

/-- The C7 run. -/
def c7run : List Event × Exit Unit := iter_relax_run c7Exec c7Args [] [] sTriv 25

/-- Arguments for the C6 witness: like C7 but tolerating nonconvergence. -/
def c6Args : RelaxArgs := { c7Args with nofail := true, keepsteps := true }

/-- Executor for the C6 counterexample: ionic extractions carry an
unconverged energy trace (gap 10 against criterion 1), every other
extraction an already converged one. -/
def c6cExec : Exec := fun dir =>
  if PathComp.name "relax_ions" ∈ dir then
    { success := true, struct := sTriv, total_energies := [0, 10],
      total_energy := 10, forces := [(0,0,0)], stress := mTriv }
  else okCore

/-- Arguments for the C6 counterexample: all three phases configured,
maxcalls 2, NOT tolerating nonconvergence. -/
def c6cArgs : RelaxArgs :=
  { ediff := 1/2, maxcalls := 2, keepsteps := true, nofail := false,
    convergence := Criterion.num 1, minrelsteps := -1, first_trial := [],
    mode := { cellshape := true, ionic := true, relgw := true } }

/-- The C6 counterexample run. -/
def c6cRun : List Event × Exit Unit :=
  iter_relax_run c6cExec c6cArgs [] [] sTriv 25

/-- Executor for the C8 scenario: always successful, never converged
(energy gap 10 against criterion 1). -/
def c8Exec : Exec := fun _ =>
  { success := true, struct := sTriv, total_energies := [0,10], total_energy := 0,
    forces := [(0,0,0)], stress := mTriv }

/-- Arguments for the C8 scenario: training run with a non-empty
first-trial override and room for two cycles. -/
def c8Args : TrainArgs :=
  { ediff := 1/2, maxcalls := 4, nofail := true,
    convergence := Criterion.num 1, minrelsteps := -1,
    first_trial := [("nsw", 9)],
    mode := { cellshape := true, ionic := true, relgw := false } }

/-- The C8 run. -/
def c8run : List Event × Exit Unit := iter_training_run c8Exec c8Args [] [] sTriv 9

/-- A successful result with an empty energy trace at step directory 0. -/
def c2Res : Result :=
  { success := true, struct := sTriv, total_energies := [], total_energy := 0,
    forces := [], stress := mTriv, directory := [PathComp.num 0] }

/-- A successful result with a constant two-entry energy trace at step
directory 0. -/
def c2WitnessRes : Result :=
  { success := true, struct := sTriv, total_energies := [4, 4], total_energy := 4,
    forces := [], stress := mTriv, directory := [PathComp.num 0] }

/-- Executor for the C4 scenario: zero projected stress at the baseline
strain 0 (energy 0), positive projected stress (and energy 10) everywhere
else. -/
def c4Exec : Exec := fun dir =>
  if dir = epiDir [] 0 then
    { success := true, struct := sTriv, total_energies := [0], total_energy := 0,
      forces := [(0,0,0)], stress := diag 0 }
  else
    { success := true, struct := sTriv, total_energies := [10],
      total_energy := 10, forces := [(0,0,0)], stress := diag 1 }

/-- The default epitaxial direction [0, 0, 1]. -/
def c4d : V3 := (0,0,1)

/-- Epitaxial arguments of the C4 scenario (integer initial step). -/
def c4Args : EpiArgs := { direction := c4d, epiconv := 1, initstep := 1 }

/-- Bisection entry state of the C4 scenario. -/
def c4Entry : EpiSt := epiEntrySt c4Exec c4d [] 1

/-- A result with energy 0 and positive projected stress along c4d. -/
def c4r0 : Result :=
  { success := true, struct := sTriv, total_energies := [0], total_energy := 0,
    forces := [], stress := diag 1, directory := epiDir [] 0 }

/-- A result with energy 3 and negative projected stress along c4d. -/
def c4r3 : Result :=
  { success := true, struct := sTriv, total_energies := [3], total_energy := 3,
    forces := [], stress := diag (-1), directory := epiDir [] 1 }

/-- A bracket whose endpoint energies differ by exactly 3. -/
def c4Eq : EpiSt := { xstart := 0, xend := 1, estart := c4r0, eend := c4r3 }

/-- Executor for the C9 scenario: positive projected stress with energy 0
at the baseline, negative projected stress with energy 3 elsewhere. -/
def c9Exec : Exec := fun dir =>
  if dir = epiDir [] 0 then
    { success := true, struct := sTriv, total_energies := [0], total_energy := 0,
      forces := [(0,0,0)], stress := diag 1 }
  else
    { success := true, struct := sTriv, total_energies := [3], total_energy := 3,
      forces := [(0,0,0)], stress := diag (-1) }

/-- Epitaxial arguments of the C9 scenario: the loose threshold 3 makes
bisection stop immediately on the initial bracket. -/
def c9Args : EpiArgs := { direction := c4d, epiconv := 3, initstep := 1 }

/-- The C9 epitaxial run. -/
def c9run : List Event × Exit Unit := iter_epitaxial_run c9Exec c9Args [] [] sTriv 5

/-- The bracket state the C9 bisection exits with (its entry state). -/
def c9StC : EpiSt := epiEntrySt c9Exec c4d [] 1

/-- Training arguments for the C10 witness. -/
def c10Args : TrainArgs :=
  { ediff := 1, maxcalls := 2, nofail := true,
    convergence := Criterion.num 1, minrelsteps := 7, first_trial := [],
    mode := { cellshape := true, ionic := true, relgw := false } }

/-- The policy the builder produces for the C10 witness arguments. -/
def c10Pol : Policy := convPreamble (-1) (energyCheck (1 * ((1:ℕ):ℚ)))

/-! Theorems.  Helper lemmas come first, then one theorem per claim. -/

/-- With a non-positive minrelsteps the preamble of a policy never gates on
the step index: on a successful result with a numeric step directory it
runs the underlying check directly. -/
theorem convPreamble_nonpos (m : Int) (hm : m ≤ 0)
    (check : Result → Except PyErr Bool) (r : Result) (k : ℕ)
    (hs : r.success = true) (hk : lastNum r.directory = some k) :
    convPreamble m check (some r) = check r := by
  have hgate : ¬(m > 0 ∧ m > (k : Int) + 1) := by omega
  simp [convPreamble, hs, hk, hgate]

/-- Every policy the builder returns is a preamble around a pure check. -/
theorem get_is_converged_shape (ediff : ℚ) (natoms : ℕ) (m : Int)
    (conv : Criterion) (pol : Policy)
    (h : get_is_converged ediff natoms m conv = .ok pol) :
    ∃ check, pol = convPreamble m check := by
  cases conv with
  | none =>
    dsimp only [get_is_converged] at h
    by_cases h1 : 0 < 10 * ediff ∧ 10 * ediff < ediff
    · rw [if_pos h1] at h
      exact Except.noConfusion h
    · rw [if_neg h1] at h
      by_cases h2 : 0 < 10 * ediff
      · rw [if_pos h2] at h
        exact ⟨_, (Except.ok.inj h).symm⟩
      · rw [if_neg h2] at h
        exact ⟨_, (Except.ok.inj h).symm⟩
  | callable f =>
    dsimp only [get_is_converged] at h
    exact Except.noConfusion h
  | num c0 =>
    dsimp only [get_is_converged] at h
    by_cases h1 : 0 < (if 0 < c0 then c0 * (natoms : ℚ) else c0) ∧
        (if 0 < c0 then c0 * (natoms : ℚ) else c0) < ediff
    · rw [if_pos h1] at h
      exact Except.noConfusion h
    · rw [if_neg h1] at h
      by_cases h2 : 0 < (if 0 < c0 then c0 * (natoms : ℚ) else c0)
      · rw [if_pos h2] at h
        exact ⟨_, (Except.ok.inj h).symm⟩
      · rw [if_neg h2] at h
        exact ⟨_, (Except.ok.inj h).symm⟩

/-- C2 counterexample: build the energy policy with the min-steps parameter
2 and evaluate it on a successful result at step directory 0 whose energy
trace has fewer than two entries; the claim says such a trace always
converges, but the policy reports not-converged because the min-steps gate
(which the claim omits) fires. -/
theorem C2_counterexample :
    get_is_converged 1 1 2 (Criterion.num 1)
        = .ok (convPreamble 2 (energyCheck (1 * ((1:ℕ):ℚ)))) ∧
    c2Res.success = true ∧
    c2Res.total_energies.length < 2 ∧
    convPreamble 2 (energyCheck (1 * ((1:ℕ):ℚ))) (some c2Res) = .ok false :=
  ⟨rfl, rfl, by decide, rfl⟩

/-- C2 amended: for every positive numeric criterion c (pre-scaled by atom
count by the caller) and every successful Result at a numeric step
directory, provided the min-steps gate passes (minrelsteps non-positive or
the 1-based step index at least minrelsteps), the energy policy reports
converged iff the absolute difference of the last two trace entries is
below c, and always reports converged on traces with fewer than two
entries. -/
theorem C2_amended_energy_policy_iff (m : Int) (c : ℚ) (r : Result) (k : ℕ)
    (hc : 0 < c) (hs : r.success = true) (hk : lastNum r.directory = some k)
    (hgate : ¬(m > 0 ∧ m > (k : Int) + 1)) :
    (r.total_energies.length < 2 →
       convPreamble m (energyCheck c) (some r) = .ok true) ∧
    (2 ≤ r.total_energies.length →
       (convPreamble m (energyCheck c) (some r) = .ok true ↔
         |r.total_energies.getD (r.total_energies.length - 1) 0
           - r.total_energies.getD (r.total_energies.length - 2) 0| < c)) := by
  have hbase : convPreamble m (energyCheck c) (some r) = energyCheck c r := by
    simp [convPreamble, hs, hk, hgate]
  refine ⟨fun hlen => ?_, fun hlen => ?_⟩
  · rw [hbase]
    simp [energyCheck, hlen]
  · rw [hbase]
    unfold energyCheck
    rw [if_neg (by omega), abs_sub_comm]
    simp

/-- C2 amended witness at a concrete gate-passing input. -/
theorem C2_amended_energy_policy_iff_witness :
    ((0:ℚ) < 1 ∧ c2WitnessRes.success = true ∧
      lastNum c2WitnessRes.directory = some 0 ∧
      ¬((-1 : Int) > 0 ∧ (-1 : Int) > ((0:ℕ) : Int) + 1)) ∧
    ((c2WitnessRes.total_energies.length < 2 →
        convPreamble (-1) (energyCheck 1) (some c2WitnessRes) = .ok true) ∧
      (2 ≤ c2WitnessRes.total_energies.length →
        (convPreamble (-1) (energyCheck 1) (some c2WitnessRes) = .ok true ↔
          |c2WitnessRes.total_energies.getD (c2WitnessRes.total_energies.length - 1) 0
            - c2WitnessRes.total_energies.getD (c2WitnessRes.total_energies.length - 2) 0| < 1))) :=
  ⟨⟨by decide, rfl, rfl, by decide⟩,
    C2_amended_energy_policy_iff (-1) 1 c2WitnessRes 0 (by decide) rfl rfl (by decide)⟩

/-- C5: evaluating the policy builder.  First: any callable criterion makes
construction raise TypeError in Python 3 (the validation compares the
callable with 0), contradicting the claim that construction succeeds for
callable criteria.  Second: for the positive per-atom criterion 2/3 with 4
atoms and executor tolerance ediff = 1, the claim (0 < 2/3 < 1) demands a
ConfigurationError, but construction succeeds because the source checks the
criterion only after scaling it by the atom count (8/3 is not below 1).
Third: the error does fire when the scaled criterion is below ediff. -/
theorem C5_construction_evaluations :
    get_is_converged 1 1 (-1) (Criterion.callable fun _ => true)
        = .error PyErr.typeError ∧
    isOkB (get_is_converged 1 4 (-1) (Criterion.num (2/3))) = true ∧
    get_is_converged 1 1 (-1) (Criterion.num (1/2)) = .error PyErr.valueError :=
  ⟨rfl, rfl, rfl⟩

/-- C1: evaluation at the failing input.  The stub executor succeeds on the
cell-shape step but reports success = false for the final static
extraction; the spec demands an immediately propagating ExecutionFailure
and no terminal Result, but the run completes normally and still yields the
terminal extraction, because the source only constructs ExternalRunFailed
without raising it. -/
theorem C1_failed_result_not_fatal :
    (Extract c1Exec ([] : Path)).success = false ∧
    c1run.2 = Exit.ok () ∧
    Event.emitFinal ([] : Path) ∈ c1run.1 :=
  ⟨rfl, by decide, by decide⟩

/-- C7: evaluation at the failing input.  A successful staged relaxation
with keepsteps = false stores its steps under relax_cellshape and
relax_ions, but the cleanup removes outdir/cellshape and outdir/ions -
directories no step was ever stored in - and does not touch the
relax_cellshape and relax_ions trees the claim names. -/
theorem C7_cleanup_removes_wrong_trees :
    countSub ([] : Path) "relax_cellshape" c7run.1 = 1 ∧
    countSub ([] : Path) "relax_ions" c7run.1 = 1 ∧
    Event.removeTree [PathComp.name "cellshape"] ∈ c7run.1 ∧
    Event.removeTree [PathComp.name "ions"] ∈ c7run.1 ∧
    Event.removeTree [PathComp.name "relax_cellshape"] ∉ c7run.1 ∧
    Event.removeTree [PathComp.name "relax_ions"] ∉ c7run.1 ∧
    c7run.2 = Exit.ok () := by
  refine ⟨by decide, by decide, by decide, by decide, by decide, by decide, by decide⟩

theorem countSub_append (outdir : Path) (sub : String) (t1 t2 : List Event) :
    countSub outdir sub (t1 ++ t2)
      = countSub outdir sub t1 + countSub outdir sub t2 := by
  simp [countSub, List.filter_append]

theorem countSub_le_length (outdir : Path) (sub : String) (tr : List Event) :
    countSub outdir sub tr ≤ tr.length :=
  List.length_filter_le _ _

/-- Step events at outdir/s/n are recognised exactly when s is the counted
sub-folder. -/
theorem isSubStep_at (outdir : Path) (sub s : String) (n : ℕ) (r : StepReq)
    (hd : r.dir = outdir ++ [PathComp.name s, PathComp.num n]) :
    isSubStep outdir sub (Event.step r) = (s == sub) := by
  simp [isSubStep, hd, List.drop_left]

/-- A step event at outdir itself is never counted. -/
theorem isSubStep_self (outdir : Path) (sub : String) (r : StepReq)
    (hd : r.dir = outdir) :
    isSubStep outdir sub (Event.step r) = false := by
  simp [isSubStep, hd, List.drop_length]

theorem le_sub_succ_of_le_sub {a b c : ℕ} (h : a ≤ c - (b + 1)) (hb : b < c) :
    a + 1 ≤ c - b := by omega

/-- Bounded-counter loops produce traces no longer than the remaining
budget ceiling - nb_steps, whenever maxcalls is positive (so that the
unbounded disjunct of the guard is off). -/
theorem phaseLoop_length_le (c : PhaseCfg) (hmax : 0 < c.maxcalls) :
    ∀ (fuel : ℕ) (st : RState),
      (phaseLoop c fuel st).1.length ≤ c.ceiling.toNat - st.nb := by
  intro fuel
  induction fuel with
  | zero =>
    intro st
    simp only [phaseLoop]
    split <;> simp
  | succ n ih =>
    intro st
    simp only [phaseLoop]
    split
    · rename_i hguard
      have hnb : (st.nb : Int) < c.ceiling := by
        rcases hguard.1 with h | h
        · omega
        · exact h
      have hnb2 : st.nb < c.ceiling.toNat := by omega
      split
      · simp only [List.length_cons]
        exact le_sub_succ_of_le_sub (ih _) hnb2
      · split <;>
          first
            | (simp only [List.length_cons, List.length_nil]; omega)
            | (simp only [List.length_cons]
               exact le_sub_succ_of_le_sub (ih _) hnb2)
    · simp

/-- Every step of a phase loop lives in its own sub-folder, so a count for
a different sub-folder name is zero. -/
theorem phaseLoop_countSub_other (c : PhaseCfg) (sub2 : String)
    (h : (c.sub == sub2) = false) :
    ∀ (fuel : ℕ) (st : RState),
      countSub c.outdir sub2 (phaseLoop c fuel st).1 = 0 := by
  intro fuel
  induction fuel with
  | zero =>
    intro st
    simp only [phaseLoop]
    split <;> simp [countSub]
  | succ n ih =>
    intro st
    simp only [phaseLoop]
    split
    · have hev : isSubStep c.outdir sub2 (Event.step
          { struct := st.rs,
            dir := c.outdir ++ [PathComp.name c.sub, PathComp.num st.nb],
            restart := st.output, relaxation := c.tag, params := st.params })
          = false := by
        rw [isSubStep_at c.outdir sub2 c.sub st.nb _ rfl]
        exact h
      split
      · simp only [countSub, List.filter_cons, hev, Bool.false_eq_true,
          if_false]
        exact ih _
      · split
        · simp [countSub, hev]
        · simp [countSub, hev]
        · simp only [countSub, List.filter_cons, hev, Bool.false_eq_true,
            if_false]
          exact ih _
    · simp [countSub]

/-- The inter-phase convergence gate requests nothing. -/
theorem convCheck_fst (pol : Policy) (nofail : Bool) (out : Option Result)
    (e : PyErr) : (convCheck pol nofail out e).1 = [] := by
  unfold convCheck
  split
  · split <;> rfl
  · rfl

/-- The relgw step lives in relax_gwcalc, so any other sub-folder count of
its trace is zero. -/
theorem gwPhase_countSub_other (ex : Exec) (maxcalls : Int) (active : Bool)
    (outdir : Path) (st : RState) (sub2 : String)
    (h : ("relax_gwcalc" == sub2) = false) :
    countSub outdir sub2 (gwPhase ex maxcalls active outdir st).1 = 0 := by
  unfold gwPhase
  split
  · have hev : isSubStep outdir sub2 (Event.step
        { struct := st.rs,
          dir := outdir ++ [PathComp.name "relax_gwcalc", PathComp.num st.nb],
          restart := st.output, relaxation := RelaxTag.relgw,
          params := st.params }) = false := by
      rw [isSubStep_at outdir sub2 "relax_gwcalc" st.nb _ rfl, h]
    simp [countSub, List.filter_cons, hev]
  · simp [countSub]

/-- The final static step and the cleanup events are never counted in a
numbered sub-folder. -/
theorem staticPhase_countSub (ex : Exec) (keepsteps : Bool) (kwargs : Params)
    (outdir : Path) (st : RState) (sub2 : String) :
    countSub outdir sub2 (staticPhase ex keepsteps kwargs outdir st).1 = 0 := by
  have hev : isSubStep outdir sub2 (Event.step
      { struct := st.rs, dir := outdir, restart := st.output,
        relaxation := RelaxTag.static, params := kwargs }) = false :=
    isSubStep_self outdir sub2 _ rfl
  unfold staticPhase
  by_cases hc : (Extract ex outdir).success = true ∧ keepsteps = false
  · simp [countSub, hc, hev, isSubStep]
  · simp [countSub, hc, hev, isSubStep]

/-- Sequencing adds the counts of the two parts. -/
theorem countSub_andThen_le {α β : Type} (outdir : Path) (sub : String)
    (x : List Event × Exit α) (k : α → List Event × Exit β) (n1 n2 : ℕ)
    (h1 : countSub outdir sub x.1 ≤ n1)
    (h2 : ∀ a, countSub outdir sub (k a).1 ≤ n2) :
    countSub outdir sub (andThen x k).1 ≤ n1 + n2 := by
  obtain ⟨tr, e⟩ := x
  cases e with
  | ok a =>
    simpa [andThen, countSub_append] using
      Nat.add_le_add h1 (h2 a)
  | err er => exact le_trans h1 (Nat.le_add_right _ _)
  | fuelOut => exact le_trans h1 (Nat.le_add_right _ _)

/-- C3: for every positive maxcalls, one invocation of the staged
relaxation requests at most maxcalls cell-shape steps and at most
maxcalls + 1 ionic steps, whatever the executor, the parameters and the
fuel. -/
theorem C3_step_ceilings (ex : Exec) (a : RelaxArgs) (kwargs : Params)
    (outdir : Path) (struct0 : Structure) (fuel : ℕ)
    (hmax : 0 < a.maxcalls) :
    ((countSub outdir "relax_cellshape"
        (iter_relax_run ex a kwargs outdir struct0 fuel).1 : ℕ) : Int)
      ≤ a.maxcalls ∧
    ((countSub outdir "relax_ions"
        (iter_relax_run ex a kwargs outdir struct0 fuel).1 : ℕ) : Int)
      ≤ a.maxcalls + 1 := by
  rcases hgc : get_is_converged a.ediff struct0.len a.minrelsteps a.convergence
    with e | pol
  · have hrun : iter_relax_run ex a kwargs outdir struct0 fuel = ([], .err e) := by
      unfold iter_relax_run
      rw [hgc]
    rw [hrun]
    constructor <;> simp [countSub] <;> omega
  · have hcell : countSub outdir "relax_cellshape"
        (iter_relax_run ex a kwargs outdir struct0 fuel).1
        ≤ a.maxcalls.toNat + 0 := by
      unfold iter_relax_run
      simp only [hgc]
      refine countSub_andThen_le _ _ _ _ _ _ ?_ ?_
      · have h1 := phaseLoop_length_le (relaxCellCfg ex a kwargs outdir pol)
          hmax fuel
          { nb := 0, output := none, rs := struct0,
            params := dictUpdate kwargs a.first_trial }
        have h2 := countSub_le_length outdir "relax_cellshape"
          (phaseLoop (relaxCellCfg ex a kwargs outdir pol) fuel
            { nb := 0, output := none, rs := struct0,
              params := dictUpdate kwargs a.first_trial }).1
        dsimp only [relaxCellCfg] at h1 h2 ⊢
        omega
      · intro st1
        refine le_trans (countSub_andThen_le _ _ _ _ 0 0 ?_ ?_) (by omega)
        · simp [convCheck_fst, countSub]
        · intro u
          refine le_trans (countSub_andThen_le _ _ _ _ 0 0 ?_ ?_) (by omega)
          · exact le_of_eq (phaseLoop_countSub_other
              (relaxIonCfg ex a kwargs outdir pol) _ (by rfl) fuel st1)
          · intro st2
            refine le_trans (countSub_andThen_le _ _ _ _ 0 0 ?_ ?_) (by omega)
            · exact le_of_eq (gwPhase_countSub_other ex a.maxcalls
                a.mode.relgw outdir st2 _ (by decide))
            · intro st3
              refine le_trans (countSub_andThen_le _ _ _ _ 0 0 ?_ ?_) (by omega)
              · simp [convCheck_fst, countSub]
              · intro v
                exact le_of_eq (staticPhase_countSub ex a.keepsteps kwargs
                  outdir st3 _)
    have hion : countSub outdir "relax_ions"
        (iter_relax_run ex a kwargs outdir struct0 fuel).1
        ≤ 0 + (a.maxcalls + 1).toNat := by
      unfold iter_relax_run
      simp only [hgc]
      refine countSub_andThen_le _ _ _ _ _ _ ?_ ?_
      · exact le_of_eq (phaseLoop_countSub_other
          (relaxCellCfg ex a kwargs outdir pol) _ (by rfl) fuel _)
      · intro st1
        refine le_trans (countSub_andThen_le _ _ _ _ 0 ((a.maxcalls + 1).toNat)
          ?_ ?_) (by omega)
        · simp [convCheck_fst, countSub]
        · intro u
          refine le_trans (countSub_andThen_le _ _ _ _ ((a.maxcalls + 1).toNat) 0
            ?_ ?_) (by omega)
          · have h1 := phaseLoop_length_le (relaxIonCfg ex a kwargs outdir pol)
              hmax fuel st1
            have h2 := countSub_le_length outdir "relax_ions"
              (phaseLoop (relaxIonCfg ex a kwargs outdir pol) fuel st1).1
            dsimp only [relaxIonCfg] at h1 h2 ⊢
            omega
          · intro st2
            refine le_trans (countSub_andThen_le _ _ _ _ 0 0 ?_ ?_) (by omega)
            · exact le_of_eq (gwPhase_countSub_other ex a.maxcalls
                a.mode.relgw outdir st2 _ (by decide))
            · intro st3
              refine le_trans (countSub_andThen_le _ _ _ _ 0 0 ?_ ?_) (by omega)
              · simp [convCheck_fst, countSub]
              · intro v
                exact le_of_eq (staticPhase_countSub ex a.keepsteps kwargs
                  outdir st3 _)
    constructor <;> omega

theorem lastNum_concat (p : Path) (s : String) (n : ℕ) :
    lastNum (p ++ [PathComp.name s, PathComp.num n]) = some n := by
  unfold lastNum
  rw [show p ++ [PathComp.name s, PathComp.num n]
      = (p ++ [PathComp.name s]) ++ [PathComp.num n] by simp]
  rw [List.getLast?_concat]

/-- With a positive maxcalls, an all-successful executor and a policy that
never raises on the loop's own outputs, a phase loop with enough fuel
always exits normally. -/
theorem phaseLoop_ok (c : PhaseCfg) (hmax : 0 < c.maxcalls)
    (hsucc : ∀ dir, (c.ex dir).success = true)
    (hpol : ∀ (r : Result) (k : ℕ), r.success = true →
      lastNum r.directory = some k → ∃ b, c.pol (some r) = .ok b) :
    ∀ (fuel : ℕ) (st : RState), c.ceiling.toNat ≤ st.nb + fuel →
      ∃ tr st2, phaseLoop c fuel st = (tr, .ok st2) := by
  intro fuel
  induction fuel with
  | zero =>
    intro st hf
    simp only [phaseLoop]
    split
    · rename_i hguard
      exfalso
      rcases hguard.1 with h | h
      · rcases hguard.2 with _
        omega
      · omega
    · exact ⟨_, _, rfl⟩
  | succ n ih =>
    intro st hf
    simp only [phaseLoop]
    split
    · have hsr : (Extract c.ex
          (c.outdir ++ [PathComp.name c.sub, PathComp.num st.nb])).success
          = true := hsucc _
      split
      · obtain ⟨tr, st2, hr⟩ := ih
          { nb := st.nb + 1,
            output := some (Extract c.ex
              (c.outdir ++ [PathComp.name c.sub, PathComp.num st.nb])),
            rs := (Extract c.ex
              (c.outdir ++ [PathComp.name c.sub, PathComp.num st.nb])).struct,
            params := c.kwargs }
          (by show c.ceiling.toNat ≤ st.nb + 1 + n; omega)
        rw [hr]
        exact ⟨_, _, rfl⟩
      · obtain ⟨b, hb⟩ := hpol
          (Extract c.ex (c.outdir ++ [PathComp.name c.sub, PathComp.num st.nb]))
          st.nb hsr (lastNum_concat _ _ _)
        simp only [hb]
        cases b with
        | true => exact ⟨_, _, rfl⟩
        | false =>
          obtain ⟨tr, st2, hr⟩ := ih
            { nb := st.nb + 1,
              output := some (Extract c.ex
                (c.outdir ++ [PathComp.name c.sub, PathComp.num st.nb])),
              rs := (Extract c.ex
                (c.outdir ++ [PathComp.name c.sub, PathComp.num st.nb])).struct,
              params := st.params }
            (by show c.ceiling.toNat ≤ st.nb + 1 + n; omega)
          rw [hr]
          exact ⟨_, _, rfl⟩
    · exact ⟨_, _, rfl⟩

/-- The relgw step never raises. -/
theorem gwPhase_ok (ex : Exec) (maxcalls : Int) (active : Bool)
    (outdir : Path) (st : RState) :
    ∃ tr st2, gwPhase ex maxcalls active outdir st = (tr, .ok st2) := by
  unfold gwPhase
  split
  · exact ⟨_, _, rfl⟩
  · exact ⟨_, _, rfl⟩

/-- C6 (amended): under an all-successful executor and a policy that never
raises on numbered step outputs, (1) with tolerate-nonconvergence (nofail)
the run signals no ConvergenceFailure, completes normally and emits the
terminal Result; (2) without nofail, when the cell-shape loop exits with
its latest output unconverged, the run raises the ConvergenceFailure
naming the cell-shape phase with exactly the cell-shape trace requested;
(3) without nofail, after cell-shape converged and the ionic loop exits,
the second gate evaluates the LATEST output after the (possibly active)
relgw step - the relax_gwcalc extraction when relgw ran, the ionic one
otherwise - and raises the ConvergenceFailure naming the ions phase
exactly when that post-gw output is unconverged; an ionic phase exhausted
unconverged therefore escapes the failure when the subsequent gw output
satisfies the criterion. -/
theorem C6_nofail_tolerance_and_convergence_failure (ex : Exec)
    (a : RelaxArgs) (kwargs : Params) (outdir : Path) (struct0 : Structure)
    (fuel : ℕ) (pol : Policy)
    (hpolbuild : get_is_converged a.ediff struct0.len a.minrelsteps
      a.convergence = .ok pol)
    (hsucc : ∀ dir, (ex dir).success = true)
    (hpol : ∀ (r : Result) (k : ℕ), r.success = true →
      lastNum r.directory = some k → ∃ b, pol (some r) = .ok b)
    (hmax : 0 < a.maxcalls) (hfuel : a.maxcalls.toNat + 2 ≤ fuel) :
    (a.nofail = true →
      (iter_relax_run ex a kwargs outdir struct0 fuel).2 = .ok () ∧
      Event.emitFinal outdir ∈ (iter_relax_run ex a kwargs outdir struct0 fuel).1) ∧
    (a.nofail = false →
      ∀ tr1 st1,
        phaseLoop (relaxCellCfg ex a kwargs outdir pol) fuel
          { nb := 0, output := none, rs := struct0,
            params := dictUpdate kwargs a.first_trial } = (tr1, .ok st1) →
        pol st1.output = .ok false →
        iter_relax_run ex a kwargs outdir struct0 fuel
          = (tr1, .err PyErr.convCellShape)) ∧
    (a.nofail = false →
      ∀ tr1 st1 tr2 st2 tr3 st3,
        phaseLoop (relaxCellCfg ex a kwargs outdir pol) fuel
          { nb := 0, output := none, rs := struct0,
            params := dictUpdate kwargs a.first_trial } = (tr1, .ok st1) →
        pol st1.output = .ok true →
        phaseLoop (relaxIonCfg ex a kwargs outdir pol) fuel st1
          = (tr2, .ok st2) →
        gwPhase ex a.maxcalls a.mode.relgw outdir st2 = (tr3, .ok st3) →
        pol st3.output = .ok false →
        iter_relax_run ex a kwargs outdir struct0 fuel
          = (tr1 ++ (tr2 ++ tr3), .err PyErr.convIons)) := by
  refine ⟨?_, ?_, ?_⟩
  · intro hnf
    obtain ⟨tr1, st1, h1⟩ := phaseLoop_ok (relaxCellCfg ex a kwargs outdir pol)
      hmax hsucc hpol fuel
      { nb := 0, output := none, rs := struct0,
        params := dictUpdate kwargs a.first_trial }
      (by show a.maxcalls.toNat ≤ 0 + fuel; omega)
    obtain ⟨tr2, st2, h2⟩ := phaseLoop_ok (relaxIonCfg ex a kwargs outdir pol)
      hmax hsucc hpol fuel st1
      (by show (a.maxcalls + 1).toNat ≤ st1.nb + fuel; omega)
    obtain ⟨tr3, st3, h3⟩ := gwPhase_ok ex a.maxcalls a.mode.relgw outdir st2
    have hrun : iter_relax_run ex a kwargs outdir struct0 fuel
        = (tr1 ++ (tr2 ++ (tr3 ++
            (staticPhase ex a.keepsteps kwargs outdir st3).1)),
           (staticPhase ex a.keepsteps kwargs outdir st3).2) := by
      unfold iter_relax_run
      simp only [hpolbuild]
      rw [h1]
      simp only [andThen, convCheck, hnf]
      rw [h2]
      simp only [andThen]
      rw [h3]
      simp only [andThen, convCheck, hnf]
      simp
    rw [hrun]
    constructor
    · rfl
    · simp [staticPhase]
  · intro hnf tr1 st1 h1 hconv
    unfold iter_relax_run
    simp only [hpolbuild]
    rw [h1]
    simp only [andThen, convCheck, hnf, hconv]
    simp
  · intro hnf tr1 st1 tr2 st2 tr3 st3 h1 hconv1 h2 h3 hconv2
    unfold iter_relax_run
    simp only [hpolbuild]
    rw [h1]
    simp only [andThen, convCheck, hnf, hconv1]
    rw [h2]
    simp only [andThen]
    rw [h3]
    simp only [andThen, convCheck, hnf, hconv2]
    simp

/-- The energy policy never raises on a successful result with a numeric
step directory. -/
theorem energy_policy_total (m : Int) (c : ℚ) (r : Result) (k : ℕ)
    (hs : r.success = true) (hk : lastNum r.directory = some k) :
    ∃ b, convPreamble m (energyCheck c) (some r) = .ok b := by
  have hbase : convPreamble m (energyCheck c) (some r)
      = if m > 0 ∧ m > (k : Int) + 1 then .ok false else energyCheck c r := by
    simp [convPreamble, hs, hk]
  rw [hbase]
  split
  · exact ⟨false, rfl⟩
  · unfold energyCheck
    split
    · exact ⟨true, rfl⟩
    · exact ⟨_, rfl⟩

/-- C6 witness: the tolerant branch of C6 at a concrete all-success
configuration. -/
theorem C6_nofail_tolerance_and_convergence_failure_witness :
    (get_is_converged c6Args.ediff sTriv.len c6Args.minrelsteps
        c6Args.convergence = .ok c10Pol ∧
      (0 : Int) < c6Args.maxcalls ∧ c6Args.maxcalls.toNat + 2 ≤ 25 ∧
      c6Args.nofail = true) ∧
    ((iter_relax_run c7Exec c6Args [] [] sTriv 25).2 = .ok () ∧
      Event.emitFinal ([] : Path)
        ∈ (iter_relax_run c7Exec c6Args [] [] sTriv 25).1) :=
  ⟨⟨rfl, by decide, by decide, rfl⟩,
    (C6_nofail_tolerance_and_convergence_failure c7Exec c6Args [] [] sTriv 25
        c10Pol rfl (fun _ => rfl)
        (fun r k hs hk => energy_policy_total (-1) (1 * ((1:ℕ):ℚ)) r k hs hk)
        (by decide) (by decide)).1 rfl⟩

/-- C6 counterexample: with relgw configured and nofail NOT set, the ionic
loop exhausts every remaining allotted call (1 cell-shape + 2 ionic steps
= maxcalls + 1 on the shared counter) with its latest output, the
relax_ions/2 extraction, unconverged under the run's policy - yet the run
raises no ConvergenceFailure and completes with the terminal Result,
because the second gate evaluates the relax_gwcalc output, which happens
to converge.  This contradicts the original claim that an exhausted
unconverged phase signals a ConvergenceFailure unless nofail is set. -/
theorem C6_counterexample :
    c6cArgs.nofail = false ∧
    c6cArgs.mode.relgw = true ∧
    countSub ([] : Path) "relax_cellshape" c6cRun.1 = 1 ∧
    countSub ([] : Path) "relax_ions" c6cRun.1 = 2 ∧
    ((1 : Int) + 2 = c6cArgs.maxcalls + 1) ∧
    get_is_converged c6cArgs.ediff sTriv.len c6cArgs.minrelsteps
      c6cArgs.convergence = .ok c10Pol ∧
    c10Pol (some (Extract c6cExec
      [PathComp.name "relax_ions", PathComp.num 2])) = .ok false ∧
    c10Pol (some (Extract c6cExec
      [PathComp.name "relax_gwcalc", PathComp.num 3])) = .ok true ∧
    c6cRun.2 = Exit.ok () ∧
    Event.emitFinal ([] : Path) ∈ c6cRun.1 :=
  ⟨rfl, rfl, by decide, by decide, by decide, rfl, rfl, rfl,
    by decide, by decide⟩

/-- C3 witness: the bounds at the concrete C7 configuration. -/
theorem C3_step_ceilings_witness :
    (0 : Int) < c7Args.maxcalls ∧
    (((countSub ([] : Path) "relax_cellshape" c7run.1 : ℕ) : Int)
        ≤ c7Args.maxcalls ∧
      ((countSub ([] : Path) "relax_ions" c7run.1 : ℕ) : Int)
        ≤ c7Args.maxcalls + 1) :=
  ⟨by decide, C3_step_ceilings c7Exec c7Args [] [] sTriv 25 (by decide)⟩

/-- C10: iter_training builds its convergence policy without forwarding
the min-steps parameter, so (first) the run is entirely independent of the
minrelsteps argument, and (second) the policy the run builds is a preamble
with the builder default -1 that applies the underlying criterion check
directly - with no step-index gate - to every successful result at a
numeric step directory, from the very first step on. -/
theorem C10_training_policy_ungated (ex : Exec) (a : TrainArgs)
    (kwargs : Params) (outdir : Path) (struct0 : Structure) (fuel : ℕ)
    (pol : Policy)
    (hpol : get_is_converged a.ediff struct0.len (-1) a.convergence = .ok pol) :
    (∀ m : Int,
      iter_training_run ex { a with minrelsteps := m } kwargs outdir struct0 fuel
        = iter_training_run ex a kwargs outdir struct0 fuel) ∧
    (∃ check, pol = convPreamble (-1) check ∧
      ∀ (r : Result) (k : ℕ), r.success = true → lastNum r.directory = some k →
        pol (some r) = check r) := by
  obtain ⟨check, rfl⟩ := get_is_converged_shape _ _ _ _ _ hpol
  exact ⟨fun m => rfl,
    check, rfl,
    fun r k hs hk => convPreamble_nonpos (-1) (by omega) check r k hs hk⟩

/-- C10 witness at a concrete training configuration with minrelsteps 7. -/
theorem C10_training_policy_ungated_witness :
    get_is_converged c10Args.ediff sTriv.len (-1) c10Args.convergence
        = .ok c10Pol ∧
    ((∀ m : Int,
      iter_training_run c8Exec { c10Args with minrelsteps := m } [] [] sTriv 9
        = iter_training_run c8Exec c10Args [] [] sTriv 9) ∧
    (∃ check, c10Pol = convPreamble (-1) check ∧
      ∀ (r : Result) (k : ℕ), r.success = true → lastNum r.directory = some k →
        c10Pol (some r) = check r)) :=
  ⟨rfl, C10_training_policy_ungated c8Exec c10Args [] [] sTriv 9 c10Pol rfl⟩

/-- The search sign times the baseline projected stress is never
negative: the sign is defined as 1 exactly when the baseline stress is
positive and -1 otherwise. -/
theorem epiSdir_mul_nonneg (ex : Exec) (d : V3) (outdir : Path) :
    0 ≤ epiSdir ex d outdir * component d (epiEstart ex outdir).stress := by
  unfold epiSdir
  split
  · rename_i h
    rw [one_mul]
    exact le_of_lt h
  · rename_i h
    rw [neg_one_mul]
    exact neg_nonneg.mpr (le_of_not_lt h)

/-- When the bracket walk exits normally from a state whose start endpoint
has non-negative signed stress, the exit state weakly straddles the sign
change. -/
theorem epiBracketLoop_straddle (ex : Exec) (kwargs : Params) (outdir : Path)
    (d : V3) (sdir initstep : ℚ) (struct0 : Structure) :
    ∀ (fuel : ℕ) (st st2 : EpiSt),
      (epiBracketLoop ex kwargs outdir d sdir initstep struct0 fuel st).2
        = .ok st2 →
      0 ≤ sdir * component d st.estart.stress →
      straddle d sdir st2 := by
  intro fuel
  induction fuel with
  | zero =>
    intro st st2 h hst
    simp only [epiBracketLoop] at h
    split at h
    · exact Exit.noConfusion h
    · rename_i hguard
      obtain rfl := Exit.ok.inj h
      exact ⟨hst, le_of_not_lt hguard⟩
  | succ n ih =>
    intro st st2 h hst
    simp only [epiBracketLoop] at h
    split at h
    · rename_i hguard
      exact ih _ st2 h (le_of_lt hguard)
    · rename_i hguard
      obtain rfl := Exit.ok.inj h
      exact ⟨hst, le_of_not_lt hguard⟩

/-- A normally exiting bisection run preserves the weak straddle and ends
with the bracket energies within the threshold. -/
theorem epiBisectLoop_invariant (ex : Exec) (kwargs : Params) (outdir : Path)
    (d : V3) (sdir thr : ℚ) (struct0 : Structure) :
    ∀ (fuel : ℕ) (prev : Result) (st st2 : EpiSt),
      (epiBisectLoop ex kwargs outdir d sdir thr struct0 fuel prev st).2
        = .ok st2 →
      straddle d sdir st →
      straddle d sdir st2 ∧
      |st2.estart.total_energy - st2.eend.total_energy| ≤ thr := by
  intro fuel
  induction fuel with
  | zero =>
    intro prev st st2 h hst
    simp only [epiBisectLoop] at h
    split at h
    · exact Exit.noConfusion h
    · rename_i hguard
      obtain rfl := Exit.ok.inj h
      exact ⟨hst, le_of_not_lt hguard⟩
  | succ n ih =>
    intro prev st st2 h hst
    simp only [epiBisectLoop] at h
    split at h
    · split at h
      · rename_i hmid
        exact ih _ _ st2 h ⟨le_of_lt hmid, hst.2⟩
      · rename_i hmid
        exact ih _ _ st2 h ⟨hst.1, le_of_not_lt hmid⟩
    · rename_i hguard
      obtain rfl := Exit.ok.inj h
      exact ⟨hst, le_of_not_lt hguard⟩

/-- One midpoint replacement - start endpoint when the midpoint stress has
the search sign, end endpoint otherwise - preserves the weak straddle. -/
theorem bisect_replace_preserves (d : V3) (sdir : ℚ) (st : EpiSt) (xmid : ℚ)
    (emid : Result) (hst : straddle d sdir st) :
    straddle d sdir
      (if 0 < sdir * component d emid.stress
        then { st with xstart := xmid, estart := emid }
        else { st with xend := xmid, eend := emid }) := by
  split
  · rename_i h
    exact ⟨le_of_lt h, hst.2⟩
  · rename_i h
    exact ⟨hst.1, le_of_not_lt h⟩

/-- The bisection loop stops immediately - without requesting anything -
exactly when the bracket energy difference is at (or below) the
threshold. -/
theorem epiBisectLoop_stop (ex : Exec) (kwargs : Params) (outdir : Path)
    (d : V3) (sdir thr : ℚ) (struct0 : Structure)
    (fuel : ℕ) (prev : Result) (st : EpiSt)
    (h : ¬ thr < |st.estart.total_energy - st.eend.total_energy|) :
    epiBisectLoop ex kwargs outdir d sdir thr struct0 fuel prev st
      = ([], .ok st) := by
  cases fuel <;> simp only [epiBisectLoop] <;> rw [if_neg h]

/-- When the bracket energy difference is above the threshold and fuel
remains, the loop requests the midpoint evaluation first. -/
theorem epiBisectLoop_go (ex : Exec) (kwargs : Params) (outdir : Path)
    (d : V3) (sdir thr : ℚ) (struct0 : Structure)
    (fuel : ℕ) (prev : Result) (st : EpiSt)
    (h : thr < |st.estart.total_energy - st.eend.total_energy|) :
    ∃ rest,
      (epiBisectLoop ex kwargs outdir d sdir thr struct0 (fuel + 1) prev st).1
        = Event.step
            { struct := change_structure struct0 d ((st.xend + st.xstart) / 2),
              dir := epiDir outdir ((st.xend + st.xstart) / 2),
              restart := some prev, relaxation := RelaxTag.two,
              params := kwargs } :: rest := by
  simp only [epiBisectLoop]
  rw [if_pos h]
  exact ⟨_, rfl⟩

/-- C4 amended: relative to the recorded search sign s, (1) the bisection
entry state produced by the bracket phase satisfies the weak straddle
s * stress(start) >= 0 and s * stress(end) <= 0 (opposite signs up to
exactly-zero projected stresses); (2) each midpoint evaluation replaces the
start endpoint when the midpoint stress carries the search sign and the end
endpoint otherwise, preserving the weak straddle; (3) a normally exiting
bisection preserves the straddle and terminates with the endpoint energy
difference at most epiconv * atom count; (4) the loop stops immediately
when the difference does not exceed that threshold and (5) requests a
midpoint evaluation when it does. -/
theorem C4_bisection_invariants (ex : Exec) (a : EpiArgs) (kwargs : Params)
    (outdir : Path) (struct0 : Structure) :
    (∀ (fuel : ℕ) (stB : EpiSt),
      (epiBracketLoop ex kwargs outdir a.direction
          (epiSdir ex a.direction outdir) a.initstep struct0 fuel
          (epiEntrySt ex a.direction outdir a.initstep)).2 = .ok stB →
      straddle a.direction (epiSdir ex a.direction outdir) stB) ∧
    (∀ (st : EpiSt) (xmid : ℚ) (emid : Result),
      straddle a.direction (epiSdir ex a.direction outdir) st →
      straddle a.direction (epiSdir ex a.direction outdir)
        (if 0 < epiSdir ex a.direction outdir
            * component a.direction emid.stress
          then { st with xstart := xmid, estart := emid }
          else { st with xend := xmid, eend := emid })) ∧
    (∀ (fuel : ℕ) (prev : Result) (st st2 : EpiSt),
      (epiBisectLoop ex kwargs outdir a.direction
          (epiSdir ex a.direction outdir) (a.epiconv * (struct0.len : ℚ))
          struct0 fuel prev st).2 = .ok st2 →
      straddle a.direction (epiSdir ex a.direction outdir) st →
      straddle a.direction (epiSdir ex a.direction outdir) st2 ∧
      |st2.estart.total_energy - st2.eend.total_energy|
        ≤ a.epiconv * (struct0.len : ℚ)) ∧
    (∀ (fuel : ℕ) (prev : Result) (st : EpiSt),
      ¬ a.epiconv * (struct0.len : ℚ)
          < |st.estart.total_energy - st.eend.total_energy| →
      epiBisectLoop ex kwargs outdir a.direction
          (epiSdir ex a.direction outdir) (a.epiconv * (struct0.len : ℚ))
          struct0 fuel prev st = ([], .ok st)) ∧
    (∀ (fuel : ℕ) (prev : Result) (st : EpiSt),
      a.epiconv * (struct0.len : ℚ)
          < |st.estart.total_energy - st.eend.total_energy| →
      ∃ rest,
        (epiBisectLoop ex kwargs outdir a.direction
            (epiSdir ex a.direction outdir) (a.epiconv * (struct0.len : ℚ))
            struct0 (fuel + 1) prev st).1
          = Event.step
              { struct := change_structure struct0 a.direction
                  ((st.xend + st.xstart) / 2),
                dir := epiDir outdir ((st.xend + st.xstart) / 2),
                restart := some prev, relaxation := RelaxTag.two,
                params := kwargs } :: rest) := by
  refine ⟨?_, ?_, ?_, ?_, ?_⟩
  · intro fuel stB h
    exact epiBracketLoop_straddle ex kwargs outdir a.direction _ a.initstep
      struct0 fuel _ stB h (epiSdir_mul_nonneg ex a.direction outdir)
  · intro st xmid emid hst
    exact bisect_replace_preserves _ _ st xmid emid hst
  · intro fuel prev st st2 h hst
    exact epiBisectLoop_invariant ex kwargs outdir a.direction _ _ struct0
      fuel prev st st2 h hst
  · intro fuel prev st h
    exact epiBisectLoop_stop ex kwargs outdir a.direction _ _ struct0
      fuel prev st h
  · intro fuel prev st h
    exact epiBisectLoop_go ex kwargs outdir a.direction _ _ struct0
      fuel prev st h

/-- C4 counterexample: with a baseline of exactly zero projected stress
the bracket phase exits immediately, the bisection loop is entered (energy
gap 10 above the threshold 1), yet the two endpoints do not carry
opposite-sign projected stresses (their product is 0, not negative); and a
bisection loop whose endpoint energies differ by exactly the threshold 3
terminates immediately although the difference is not strictly below the
threshold. -/
theorem C4_counterexample :
    epiBracketLoop c4Exec [] [] c4d (epiSdir c4Exec c4d []) 1 sTriv 5 c4Entry
      = ([], .ok c4Entry) ∧
    c4Args.epiconv * ((sTriv.len : ℕ) : ℚ)
      < |c4Entry.estart.total_energy - c4Entry.eend.total_energy| ∧
    ¬ (component c4d c4Entry.estart.stress
        * component c4d c4Entry.eend.stress < 0) ∧
    epiBisectLoop c4Exec [] [] c4d 1 3 sTriv 5 c4Eq.estart c4Eq
      = ([], .ok c4Eq) ∧
    ¬ (|c4Eq.estart.total_energy - c4Eq.eend.total_energy| < 3) := by
  refine ⟨by decide, by decide, by decide, by decide, by decide⟩

/-- C4 witness: entry straddle and replacement preservation at the
concrete zero-baseline-stress scenario. -/
theorem C4_bisection_invariants_witness :
    straddle c4d (epiSdir c4Exec c4d ([] : Path)) c4Entry ∧
    straddle c4d (epiSdir c4Exec c4d ([] : Path))
      (if 0 < epiSdir c4Exec c4d ([] : Path) * component c4d c4r0.stress
        then { c4Entry with xstart := 7, estart := c4r0 }
        else { c4Entry with xend := 7, eend := c4r0 }) :=
  ⟨(C4_bisection_invariants c4Exec c4Args [] [] sTriv).1 5 c4Entry rfl,
    (C4_bisection_invariants c4Exec c4Args [] [] sTriv).2.1 c4Entry 7 c4r0
      ((C4_bisection_invariants c4Exec c4Args [] [] sTriv).1 5 c4Entry rfl)⟩

theorem stepsOf_append (t1 t2 : List Event) :
    stepsOf (t1 ++ t2) = stepsOf t1 ++ stepsOf t2 := by
  simp [stepsOf, List.filterMap_append]

theorem endRes_append (ex : Exec) (p : Option Result) (l1 l2 : List StepReq) :
    endRes ex p (l1 ++ l2) = endRes ex (endRes ex p l1) l2 := by
  induction l1 generalizing p with
  | nil => rfl
  | cons r rest ih => exact ih _

theorem chainedFrom_append (ex : Exec) (p : Option Result)
    (l1 l2 : List StepReq) (h1 : chainedFrom ex p l1)
    (h2 : chainedFrom ex (endRes ex p l1) l2) :
    chainedFrom ex p (l1 ++ l2) := by
  induction l1 generalizing p with
  | nil => exact h2
  | cons r rest ih => exact ⟨h1.1, ih _ h1.2 h2⟩

/-- Sequencing preserves chaining: if the first stage is chained from p and
hands over exactly its final checkpoint, and the continuation is chained
from that checkpoint, the whole sequence is chained from p. -/
theorem chained_andThen_last {α β : Type} (ex : Exec) (p : Option Result)
    (x : List Event × Exit α) (k : α → List Event × Exit β)
    (f : α → Option Result)
    (hx1 : chainedFrom ex p (stepsOf x.1))
    (hx2 : ∀ a, x.2 = .ok a → f a = endRes ex p (stepsOf x.1))
    (hk : ∀ a, x.2 = .ok a → chainedFrom ex (f a) (stepsOf (k a).1)) :
    chainedFrom ex p (stepsOf (andThen x k).1) := by
  obtain ⟨tr, e⟩ := x
  cases e with
  | ok a =>
    have hka := hk a rfl
    rw [hx2 a rfl] at hka
    simp only [andThen, stepsOf_append]
    exact chainedFrom_append ex p _ _ hx1 hka
  | err er => exact hx1
  | fuelOut => exact hx1

/-- A phase loop is chained from its entry checkpoint, and on normal exit
its recorded output is exactly the checkpoint after its requests. -/
theorem phaseLoop_chain (c : PhaseCfg) :
    ∀ (fuel : ℕ) (st : RState),
      chainedFrom c.ex st.output (stepsOf (phaseLoop c fuel st).1) ∧
      ∀ st2, (phaseLoop c fuel st).2 = .ok st2 →
        st2.output = endRes c.ex st.output (stepsOf (phaseLoop c fuel st).1) := by
  intro fuel
  induction fuel with
  | zero =>
    intro st
    simp only [phaseLoop]
    split
    · exact ⟨trivial, fun st2 h => Exit.noConfusion h⟩
    · exact ⟨trivial, fun st2 h => by obtain rfl := Exit.ok.inj h; rfl⟩
  | succ n ih =>
    intro st
    simp only [phaseLoop]
    split
    · split
      · have ihs := ih
          { nb := st.nb + 1,
            output := some (Extract c.ex
              (c.outdir ++ [PathComp.name c.sub, PathComp.num st.nb])),
            rs := (Extract c.ex
              (c.outdir ++ [PathComp.name c.sub, PathComp.num st.nb])).struct,
            params := c.kwargs }
        exact ⟨⟨rfl, ihs.1⟩, fun st2 h => ihs.2 st2 h⟩
      · split
        · exact ⟨⟨rfl, trivial⟩, fun st2 h => Exit.noConfusion h⟩
        · exact ⟨⟨rfl, trivial⟩,
            fun st2 h => by obtain rfl := Exit.ok.inj h; rfl⟩
        · have ihs := ih
            { nb := st.nb + 1,
              output := some (Extract c.ex
                (c.outdir ++ [PathComp.name c.sub, PathComp.num st.nb])),
              rs := (Extract c.ex
                (c.outdir ++ [PathComp.name c.sub, PathComp.num st.nb])).struct,
              params := st.params }
          exact ⟨⟨rfl, ihs.1⟩, fun st2 h => ihs.2 st2 h⟩
    · exact ⟨trivial, fun st2 h => by obtain rfl := Exit.ok.inj h; rfl⟩

/-- The relgw step is chained and hands over its extraction. -/
theorem gwPhase_chain (ex : Exec) (maxcalls : Int) (active : Bool)
    (outdir : Path) (st : RState) :
    chainedFrom ex st.output (stepsOf (gwPhase ex maxcalls active outdir st).1) ∧
    ∀ st2, (gwPhase ex maxcalls active outdir st).2 = .ok st2 →
      st2.output
        = endRes ex st.output (stepsOf (gwPhase ex maxcalls active outdir st).1) := by
  unfold gwPhase
  split
  · exact ⟨⟨rfl, trivial⟩, fun st2 h => by obtain rfl := Exit.ok.inj h; rfl⟩
  · exact ⟨trivial, fun st2 h => by obtain rfl := Exit.ok.inj h; rfl⟩

/-- The final static step restarts from the loop output it was handed. -/
theorem staticPhase_chain (ex : Exec) (keepsteps : Bool) (kwargs : Params)
    (outdir : Path) (st : RState) :
    chainedFrom ex st.output
      (stepsOf (staticPhase ex keepsteps kwargs outdir st).1) := by
  unfold staticPhase
  by_cases hc : (Extract ex outdir).success = true ∧ keepsteps = false
  · simp only [hc, if_true, if_pos]
    exact ⟨rfl, trivial⟩
  · simp only [hc, if_neg, if_false]
    exact ⟨rfl, trivial⟩

/-- The training loop is chained from its entry checkpoint, and on normal
exit its recorded output is the checkpoint after its requests. -/
theorem trainLoop_chain (ex : Exec) (maxcalls : Int)
    (first_trial kwargs : Params) (mode : RelaxMode) (outdir : Path)
    (pol : Policy) :
    ∀ (fuel : ℕ) (st : TState),
      chainedFrom ex st.output
        (stepsOf (trainLoop ex maxcalls first_trial kwargs mode outdir pol
          fuel st).1) ∧
      ∀ st2, (trainLoop ex maxcalls first_trial kwargs mode outdir pol
          fuel st).2 = .ok st2 →
        st2.output = endRes ex st.output
          (stepsOf (trainLoop ex maxcalls first_trial kwargs mode outdir pol
            fuel st).1) := by
  intro fuel
  induction fuel with
  | zero =>
    intro st
    simp only [trainLoop]
    split
    · exact ⟨trivial, fun st2 h => Exit.noConfusion h⟩
    · exact ⟨trivial, fun st2 h => by obtain rfl := Exit.ok.inj h; rfl⟩
  | succ n ih =>
    intro st
    simp only [trainLoop]
    split
    · split
      · exact ⟨⟨rfl, trivial⟩, fun st2 h => Exit.noConfusion h⟩
      · split
        · exact ⟨⟨rfl, rfl, trivial⟩,
            fun st2 h => by obtain rfl := Exit.ok.inj h; rfl⟩
        · have ihs := ih
            { nb := st.nb + 1 + 1,
              output := some (Extract ex
                (outdir ++ [PathComp.name "relax_ions", PathComp.num (st.nb + 1)])),
              rs := (Extract ex
                (outdir ++ [PathComp.name "relax_ions",
                  PathComp.num (st.nb + 1)])).struct }
          exact ⟨⟨rfl, rfl, ihs.1⟩, fun st2 h => ihs.2 st2 h⟩
    · exact ⟨trivial, fun st2 h => by obtain rfl := Exit.ok.inj h; rfl⟩

/-- The training static step restarts from the loop output. -/
theorem trainStatic_chain (ex : Exec) (kwargs : Params) (outdir : Path)
    (st : TState) :
    chainedFrom ex st.output (stepsOf (trainStatic ex kwargs outdir st).1) :=
  ⟨rfl, trivial⟩

/-- The bracket walk is chained from its entry end-point result, and on
normal exit its end-point result is the checkpoint after its requests. -/
theorem epiBracketLoop_chain (ex : Exec) (kwargs : Params) (outdir : Path)
    (d : V3) (sdir initstep : ℚ) (struct0 : Structure) :
    ∀ (fuel : ℕ) (st : EpiSt),
      chainedFrom ex (some st.eend)
        (stepsOf (epiBracketLoop ex kwargs outdir d sdir initstep struct0
          fuel st).1) ∧
      ∀ st2, (epiBracketLoop ex kwargs outdir d sdir initstep struct0
          fuel st).2 = .ok st2 →
        some st2.eend = endRes ex (some st.eend)
          (stepsOf (epiBracketLoop ex kwargs outdir d sdir initstep struct0
            fuel st).1) := by
  intro fuel
  induction fuel with
  | zero =>
    intro st
    simp only [epiBracketLoop]
    split
    · exact ⟨trivial, fun st2 h => Exit.noConfusion h⟩
    · exact ⟨trivial, fun st2 h => by obtain rfl := Exit.ok.inj h; rfl⟩
  | succ n ih =>
    intro st
    simp only [epiBracketLoop]
    split
    · have ihs := ih
        { xstart := st.xend,
          xend := st.xend + (if 0 < sdir then initstep else -initstep),
          estart := st.eend,
          eend := Extract ex (epiDir outdir
            (st.xend + (if 0 < sdir then initstep else -initstep))) }
      exact ⟨⟨rfl, ihs.1⟩, fun st2 h => ihs.2 st2 h⟩
    · exact ⟨trivial, fun st2 h => by obtain rfl := Exit.ok.inj h; rfl⟩

/-- The bisection loop is chained from the chronologically previous
evaluation threaded through it. -/
theorem epiBisectLoop_chain (ex : Exec) (kwargs : Params) (outdir : Path)
    (d : V3) (sdir thr : ℚ) (struct0 : Structure) :
    ∀ (fuel : ℕ) (prev : Result) (st : EpiSt),
      chainedFrom ex (some prev)
        (stepsOf (epiBisectLoop ex kwargs outdir d sdir thr struct0
          fuel prev st).1) := by
  intro fuel
  induction fuel with
  | zero =>
    intro prev st
    simp only [epiBisectLoop]
    split
    · exact trivial
    · exact trivial
  | succ n ih =>
    intro prev st
    simp only [epiBisectLoop]
    split
    · exact ⟨rfl, ih _ _⟩
    · exact trivial

/-- C9 amended: steps are strictly sequential, and every requested step's
resume checkpoint is exactly the Result of the immediately preceding step
of the invocation (or none for the first step) - including the final
static step - for the staged relaxation and training controllers; in the
epitaxial search, every step up to the final static one is likewise
chained, while the final static step's resume checkpoint is the
lower-energy bracket endpoint (which need not be the most recent
evaluation). -/
theorem C9_resume_checkpoints :
    (∀ (ex : Exec) (a : RelaxArgs) (kwargs : Params) (outdir : Path)
        (struct0 : Structure) (fuel : ℕ),
      chainedFrom ex none
        (stepsOf (iter_relax_run ex a kwargs outdir struct0 fuel).1)) ∧
    (∀ (ex : Exec) (a : TrainArgs) (kwargs : Params) (outdir : Path)
        (struct0 : Structure) (fuel : ℕ),
      chainedFrom ex none
        (stepsOf (iter_training_run ex a kwargs outdir struct0 fuel).1)) ∧
    (∀ (ex : Exec) (a : EpiArgs) (kwargs : Params) (outdir : Path)
        (struct0 : Structure) (fuel : ℕ) (trB : List Event) (stB : EpiSt)
        (trC : List Event) (stC : EpiSt),
      epiBracketLoop ex kwargs outdir a.direction
          (epiSdir ex a.direction outdir) a.initstep struct0 fuel
          (epiEntrySt ex a.direction outdir a.initstep) = (trB, .ok stB) →
      epiBisectLoop ex kwargs outdir a.direction
          (epiSdir ex a.direction outdir) (a.epiconv * (struct0.len : ℚ))
          struct0 fuel stB.eend stB = (trC, .ok stC) →
      stepsOf (iter_epitaxial_run ex a kwargs outdir struct0 fuel).1
        = stepsOf (epiEv0 ex kwargs outdir struct0 a.direction
            :: epiEv1 ex kwargs outdir struct0 a.direction a.initstep
            :: (trB ++ trC)) ++ [epiStaticReq kwargs outdir stC] ∧
      chainedFrom ex none
        (stepsOf (epiEv0 ex kwargs outdir struct0 a.direction
          :: epiEv1 ex kwargs outdir struct0 a.direction a.initstep
          :: (trB ++ trC))) ∧
      (epiStaticReq kwargs outdir stC).restart = some (epiFinal stC)) := by
  refine ⟨?_, ?_, ?_⟩
  · intro ex a kwargs outdir struct0 fuel
    rcases hgc : get_is_converged a.ediff struct0.len a.minrelsteps
        a.convergence with e | pol
    · have hrun : iter_relax_run ex a kwargs outdir struct0 fuel
          = ([], .err e) := by
        unfold iter_relax_run
        rw [hgc]
      rw [hrun]
      exact trivial
    · unfold iter_relax_run
      simp only [hgc]
      refine chained_andThen_last ex none _ _ (fun st1 => st1.output)
        ?_ ?_ ?_
      · exact (phaseLoop_chain (relaxCellCfg ex a kwargs outdir pol) fuel
          { nb := 0, output := none, rs := struct0,
            params := dictUpdate kwargs a.first_trial }).1
      · intro st1 h1
        exact (phaseLoop_chain (relaxCellCfg ex a kwargs outdir pol) fuel
          { nb := 0, output := none, rs := struct0,
            params := dictUpdate kwargs a.first_trial }).2 st1 h1
      · intro st1 h1
        refine chained_andThen_last ex st1.output _ _ (fun _ => st1.output)
          ?_ ?_ ?_
        · rw [convCheck_fst]
          exact trivial
        · intro u hu
          rw [convCheck_fst]
          rfl
        · intro u hu
          refine chained_andThen_last ex st1.output _ _ (fun st2 => st2.output)
            ?_ ?_ ?_
          · exact (phaseLoop_chain (relaxIonCfg ex a kwargs outdir pol)
              fuel st1).1
          · intro st2 h2
            exact (phaseLoop_chain (relaxIonCfg ex a kwargs outdir pol)
              fuel st1).2 st2 h2
          · intro st2 h2
            refine chained_andThen_last ex st2.output _ _
              (fun st3 => st3.output) ?_ ?_ ?_
            · exact (gwPhase_chain ex a.maxcalls a.mode.relgw outdir st2).1
            · intro st3 h3
              exact (gwPhase_chain ex a.maxcalls a.mode.relgw outdir st2).2
                st3 h3
            · intro st3 h3
              refine chained_andThen_last ex st3.output _ _
                (fun _ => st3.output) ?_ ?_ ?_
              · rw [convCheck_fst]
                exact trivial
              · intro u2 hu2
                rw [convCheck_fst]
                rfl
              · intro u2 hu2
                exact staticPhase_chain ex a.keepsteps kwargs outdir st3
  · intro ex a kwargs outdir struct0 fuel
    rcases hgc : get_is_converged a.ediff struct0.len (-1)
        a.convergence with e | pol
    · have hrun : iter_training_run ex a kwargs outdir struct0 fuel
          = ([], .err e) := by
        unfold iter_training_run
        rw [hgc]
      rw [hrun]
      exact trivial
    · unfold iter_training_run
      simp only [hgc]
      refine chained_andThen_last ex none _ _ (fun st1 => st1.output)
        ?_ ?_ ?_
      · exact (trainLoop_chain ex a.maxcalls a.first_trial kwargs a.mode
          outdir pol fuel { nb := 0, output := none, rs := struct0 }).1
      · intro st1 h1
        exact (trainLoop_chain ex a.maxcalls a.first_trial kwargs a.mode
          outdir pol fuel { nb := 0, output := none, rs := struct0 }).2 st1 h1
      · intro st1 h1
        refine chained_andThen_last ex st1.output _ _ (fun _ => st1.output)
          ?_ ?_ ?_
        · rw [convCheck_fst]
          exact trivial
        · intro u hu
          rw [convCheck_fst]
          rfl
        · intro u hu
          refine chained_andThen_last ex st1.output _ _ (fun _ => st1.output)
            ?_ ?_ ?_
          · rw [convCheck_fst]
            exact trivial
          · intro u2 hu2
            rw [convCheck_fst]
            rfl
          · intro u2 hu2
            exact trainStatic_chain ex kwargs outdir st1
  · intro ex a kwargs outdir struct0 fuel trB stB trC stC hB hC
    have hrun : iter_epitaxial_run ex a kwargs outdir struct0 fuel
        = ((epiEv0 ex kwargs outdir struct0 a.direction
            :: epiEv1 ex kwargs outdir struct0 a.direction a.initstep :: trB)
            ++ (trC ++ (epiStatic ex kwargs outdir stC).1),
           (epiStatic ex kwargs outdir stC).2) := by
      unfold iter_epitaxial_run
      rw [hB]
      simp only [andThen]
      rw [hC]
    have hbr := epiBracketLoop_chain ex kwargs outdir a.direction
      (epiSdir ex a.direction outdir) a.initstep struct0 fuel
      (epiEntrySt ex a.direction outdir a.initstep)
    rw [hB] at hbr
    dsimp only at hbr
    have hbs := epiBisectLoop_chain ex kwargs outdir a.direction
      (epiSdir ex a.direction outdir) (a.epiconv * (struct0.len : ℚ))
      struct0 fuel stB.eend stB
    rw [hC] at hbs
    dsimp only at hbs
    refine ⟨?_, ?_, rfl⟩
    · rw [hrun]
      simp [stepsOf_append, stepsOf, epiStatic, epiEv0, epiEv1]
    · refine ⟨rfl, rfl, ?_⟩
      show chainedFrom ex
        (some (epiEntrySt ex a.direction outdir a.initstep).eend)
        (stepsOf (trB ++ trC))
      rw [stepsOf_append]
      refine chainedFrom_append ex _ _ _ hbr.1 ?_
      rw [← hbr.2 stB rfl]
      exact hbs

/-- C9 counterexample: in the concrete epitaxial run with positive
baseline stress (energy 0) and negative stress at strain 1 (energy 3), the
run makes exactly three requests; the last (the final static step)
restarts from the baseline result at strain 0 - the lower-energy bracket
endpoint - although the immediately preceding request was the evaluation
at strain 1, whose result differs. -/
theorem C9_counterexample :
    (stepsOf c9run.1).length = 3 ∧
    (stepsOf c9run.1).getLast? = some (epiStaticReq [] [] c9StC) ∧
    (epiStaticReq [] [] c9StC).restart = some (Extract c9Exec (epiDir [] 0)) ∧
    ((stepsOf c9run.1)[1]?).map (fun r => r.dir) = some (epiDir [] 1) ∧
    some (Extract c9Exec (epiDir [] 0))
      ≠ some (Extract c9Exec (epiDir [] 1)) := by
  refine ⟨by decide, by decide, by decide, by decide, by decide⟩

/-- C9 witness: the epitaxial conjunct of C9 at the concrete run whose
bracket and bisection both exit immediately. -/
theorem C9_resume_checkpoints_witness :
    (epiBracketLoop c9Exec [] [] c9Args.direction
        (epiSdir c9Exec c9Args.direction []) c9Args.initstep sTriv 5
        (epiEntrySt c9Exec c9Args.direction [] c9Args.initstep)
        = ([], .ok c9StC) ∧
      epiBisectLoop c9Exec [] [] c9Args.direction
        (epiSdir c9Exec c9Args.direction [])
        (c9Args.epiconv * (sTriv.len : ℚ)) sTriv 5 c9StC.eend c9StC
        = ([], .ok c9StC)) ∧
    (stepsOf c9run.1
        = stepsOf (epiEv0 c9Exec [] [] sTriv c9Args.direction
            :: epiEv1 c9Exec [] [] sTriv c9Args.direction c9Args.initstep
            :: (([] : List Event) ++ ([] : List Event)))
          ++ [epiStaticReq [] [] c9StC] ∧
      chainedFrom c9Exec none
        (stepsOf (epiEv0 c9Exec [] [] sTriv c9Args.direction
          :: epiEv1 c9Exec [] [] sTriv c9Args.direction c9Args.initstep
          :: (([] : List Event) ++ ([] : List Event)))) ∧
      (epiStaticReq [] [] c9StC).restart = some (epiFinal c9StC)) :=
  ⟨⟨by decide, by decide⟩,
    C9_resume_checkpoints.2.2 c9Exec c9Args [] [] sTriv 5 [] c9StC [] c9StC
      (by decide) (by decide)⟩

/-- C8: evaluation at the failing input.  In a training run with the
non-empty first-trial override [("nsw", 9)] over base parameters [], the
cell-shape call of the second cycle (step index 2) still carries the
override: the source rebuilds params from first_trial at the top of every
cycle, while its own docstring says the override is used only for the very
first call. -/
theorem C8_first_trial_reapplied :
    c8Args.first_trial = [("nsw", 9)] ∧
    ([("nsw", 9)] : Params) ≠ [] ∧
    Event.step
      { struct := sTriv,
        dir := [PathComp.name "relax_cellshape", PathComp.num 2],
        restart := some (Extract c8Exec [PathComp.name "relax_ions", PathComp.num 1]),
        relaxation := RelaxTag.mode c8Args.mode,
        params := [("nsw", 9)] } ∈ c8run.1 :=
  ⟨rfl, by decide, by decide⟩

end PyladaRelax
